import Mathlib

/-!
# Load-test harness: work distribution, outcome classification, aggregation

A shallow embedding of the concurrent execution and aggregation core of the two
scripts `ddos.js` and `rajvansh.js`.

* JavaScript numbers that hold counts and request ids are integer-valued
  doubles, modelled as `Nat` / `Int` (`Int` wherever the source subtracts) with
  every sum, difference and product rounded to the nearest double
  (`roundNat`, `roundDouble`); `Math.ceil (a / b)` is `mathCeilDiv a b`.
  Below `2 ^ 53` nothing rounds, and `mathCeilDiv` is the exact ceiling
  `ceilDiv`.
* Elapsed times are exact rationals.
* Module-level mutable state (`results`, `totalCount`, `stopFlag`) is passed
  explicitly.
* What the network and the file system answer is an input of the model.
-/

namespace LoadTest

/-! ## Number arithmetic

Every number of the scripts is an IEEE-754 double.  The counts and ids of the
model are integers; a sum, difference or product of integer-valued doubles is
the exact result rounded to the nearest double, ties to even, which is again an
integer.  Values stay below `2 ^ 1024`, and loop counters below `2 ^ 53`, in
everything that follows. -/

/-- The loop behind `log2`; the first argument bounds the number of halvings. -/
def log2Fuel : Nat → Nat → Nat
  | 0, _ => 0
  | fuel + 1, n => if n < 2 then 0 else log2Fuel fuel (n / 2) + 1

/-- The position of the leading bit of `n`: the `e` with `2 ^ e ≤ n < 2 ^ (e + 1)`,
for `n ≥ 1`. -/
def log2 (n : Nat) : Nat := log2Fuel n n

/-- The quotient `a / d` (`d ≥ 1`) rounded to the nearest integer, ties to the
even one. -/
def roundHalfEven (a d : Nat) : Nat :=
  let k := a / d
  let rem := a % d
  if 2 * rem < d then k
  else if d < 2 * rem then k + 1
  else if k % 2 = 0 then k else k + 1

/-- The double nearest to the natural number `n`, ties to even: `n` itself below
`2 ^ 53`; from there on doubles are the multiples of `2 ^ s`, `s = log2 n - 52`,
and `n` is rounded to one of them. -/
def roundNat (n : Nat) : Nat :=
  if n < 2 ^ 53 then n
  else roundHalfEven n (2 ^ (log2 n - 52)) * 2 ^ (log2 n - 52)

/-- The double nearest to the integer `n`, ties to even. -/
def roundDouble (n : Int) : Int := n.sign * (roundNat n.natAbs : Int)

/-- The value of `Math.ceil (a / b)` for integer-valued doubles `a ≥ 0`, `b ≥ 1`:
the quotient is rounded to the nearest double before the ceiling is taken.
With `q` the integer part of the exact quotient: from `2 ^ 52` on every double
is an integer and the quotient is rounded to a multiple of `2 ^ (log2 q - 52)`;
below, an exact quotient is returned as it is, a quotient strictly between 0
and 1 gives 1, and a quotient strictly between `q` and `q + 1` gives `q` when
it lies within half a spacing `2 ^ (log2 q - 53)` of `q` (it is then rounded down
to `q`, whose significand is even) and `q + 1` otherwise. -/
def mathCeilDiv (a b : Nat) : Nat :=
  let q := a / b
  if 2 ^ 52 ≤ q then
    roundHalfEven a (b * 2 ^ (log2 q - 52)) * 2 ^ (log2 q - 52)
  else if a % b = 0 then q
  else if q = 0 then 1
  else if (a % b) * 2 ^ (53 - log2 q) ≤ b then q
  else q + 1

/-- The ceiling of the exact quotient `a / b`, for `b ≥ 1`. -/
def ceilDiv (a b : Nat) : Nat := (a + b - 1) / b

/-! ## Work distribution (`runLoadTest`, `workerFunction`) -/

/-- The distribution loop of `runLoadTest` (ddos.js 269-281).  The first argument
counts the iterations that remain (`numWorkers - i`); the second is `startId`.
Each element is one `postMessage`: `(startId, count)`, the k-th element going to
`workers[k]`.  `count <= 0` leaves the loop (`break`). -/
def distributeLoop (totalRequests requestsPerWorker : Nat) : Nat → Int → List (Int × Int)
  | 0, _ => []
  | remaining + 1, startId =>
    let count : Int :=
      min (requestsPerWorker : Int) (roundDouble ((totalRequests : Int) - startId))
    if count ≤ 0 then []
    else (startId, count) ::
      distributeLoop totalRequests requestsPerWorker remaining (roundDouble (startId + count))

/-- The messages `runLoadTest` posts in worker mode (ddos.js 237, 269-281). -/
def distributeRequests (totalRequests numWorkers : Nat) : List (Int × Int) :=
  distributeLoop totalRequests (mathCeilDiv totalRequests numWorkers) numWorkers 0

/-- The request ids one worker executes for a message `(startId, count)`
(`workerFunction`, ddos.js 131-135): `startId + i` for `0 ≤ i < count`. -/
def workerRequestIds (message : Int × Int) : List Int :=
  (List.range message.2.toNat).map (fun (i : Nat) => roundDouble (message.1 + (i : Int)))

/-- The inner loop of batch mode (ddos.js 301-309).  The first argument counts the
iterations that remain (`concurrentRequests - i`); the second is `i`.  The result
lists the request ids for which `makeRequest` is called, in call order. -/
def batchLoop (totalRequests concurrentRequests batch : Nat) : Nat → Nat → List Nat
  | 0, _ => []
  | remaining + 1, i =>
    let requestId := roundNat (roundNat (batch * concurrentRequests) + i)
    if requestId ≥ totalRequests then []
    else requestId :: batchLoop totalRequests concurrentRequests batch remaining (i + 1)

/-- The request ids of one batch (ddos.js 299-309). -/
def batchRequestIds (totalRequests concurrentRequests batch : Nat) : List Nat :=
  batchLoop totalRequests concurrentRequests batch concurrentRequests 0

/-- The batches issued by batch mode, in order (ddos.js 298). -/
def batches (totalRequests concurrentRequests : Nat) : List (List Nat) :=
  (List.range (mathCeilDiv totalRequests concurrentRequests)).map
    (batchRequestIds totalRequests concurrentRequests)

/-! ### The same loops in exact integer arithmetic

These are not part of the model of the scripts: they are what the loops above
compute as long as no operation rounds, and the proofs go through them. -/

/-- The loop `distributeLoop` without rounding. -/
def distributeLoopExact (totalRequests requestsPerWorker : Nat) :
    Nat → Int → List (Int × Int)
  | 0, _ => []
  | remaining + 1, startId =>
    let count : Int := min (requestsPerWorker : Int) ((totalRequests : Int) - startId)
    if count ≤ 0 then []
    else (startId, count) ::
      distributeLoopExact totalRequests requestsPerWorker remaining (startId + count)

/-- The messages of `distributeRequests` without rounding. -/
def distributeRequestsExact (totalRequests numWorkers : Nat) : List (Int × Int) :=
  distributeLoopExact totalRequests (ceilDiv totalRequests numWorkers) numWorkers 0

/-- The ids of `workerRequestIds` without rounding. -/
def workerRequestIdsExact (message : Int × Int) : List Int :=
  (List.range message.2.toNat).map (fun (i : Nat) => message.1 + (i : Int))

/-- The loop `batchLoop` without rounding. -/
def batchLoopExact (totalRequests concurrentRequests batch : Nat) : Nat → Nat → List Nat
  | 0, _ => []
  | remaining + 1, i =>
    let requestId := batch * concurrentRequests + i
    if requestId ≥ totalRequests then []
    else requestId :: batchLoopExact totalRequests concurrentRequests batch remaining (i + 1)

/-- The ids of `batchRequestIds` without rounding. -/
def batchRequestIdsExact (totalRequests concurrentRequests batch : Nat) : List Nat :=
  batchLoopExact totalRequests concurrentRequests batch concurrentRequests 0

/-- The batches of `batches` without rounding. -/
def batchesExact (totalRequests concurrentRequests : Nat) : List (List Nat) :=
  (List.range (ceilDiv totalRequests concurrentRequests)).map
    (batchRequestIdsExact totalRequests concurrentRequests)

/-! ## Outcomes and the results record (`results`, `processResult`, `displayResults`) -/

/-- The `status` field of a result: a numeric HTTP status, or one of the strings
`'file_error'`, `'timeout'`, `'no_response'`, `'request_error'`. -/
inductive Status where
  | code (n : Int)
  | tag (s : String)
deriving DecidableEq, Repr

/-- What `makeRequest` returns: `{ success, status, time, error }`; `error` is
absent on success. -/
structure Result where
  success : Bool
  status : Status
  time : ℚ
  error : Option String
deriving DecidableEq, Repr

/-- The value of `Number.MAX_SAFE_INTEGER`, `2^53 - 1`. -/
def MAX_SAFE_INTEGER : ℚ := 9007199254740991

/-- The shape of the module-level `results` object (ddos.js 32-42). -/
structure Results where
  successful : Nat
  failed : Nat
  timeouts : Nat
  totalTime : ℚ
  minTime : ℚ
  maxTime : ℚ
  responseTimes : List ℚ
  errors : List String
  startTime : Option ℚ
deriving DecidableEq, Repr

/-- The initial value of `results` (ddos.js 32-42). -/
def results : Results :=
  { successful := 0, failed := 0, timeouts := 0, totalTime := 0,
    minTime := MAX_SAFE_INTEGER, maxTime := 0, responseTimes := [], errors := [],
    startTime := none }

/-- The progress line of `processResult` (ddos.js 207) as a record: the running
total, `config.totalRequests`, and the two counters.  (The percentage printed
with it is computed from the first two.) -/
structure Progress where
  processed : Nat
  total : Nat
  successful : Nat
  failed : Nat
deriving DecidableEq, Repr

/-- The expression `result.error || 'Unknown error'` (ddos.js 200): an absent or
empty `error` is falsy. -/
def errorText (error : Option String) : String :=
  match error with
  | some e => if e = "" then "Unknown error" else e
  | none => "Unknown error"

/-- The update of `results` made by `processResult` (ddos.js 190-201). -/
def updateResults (r : Results) (result : Result) : Results :=
  if result.success then
    { r with
      successful := r.successful + 1
      responseTimes := r.responseTimes ++ [result.time]
      minTime := min r.minTime result.time
      maxTime := max r.maxTime result.time }
  else
    { r with
      failed := r.failed + 1
      timeouts := if result.status = Status.tag "timeout" then r.timeouts + 1 else r.timeouts
      errors := r.errors ++ [errorText result.error] }

/-- The progress logging of `processResult` (ddos.js 204-208), on the record as
updated: the lines printed, none or one. -/
def progressLog (totalRequests : Nat) (r : Results) : List Progress :=
  let total := r.successful + r.failed
  if total % 10 = 0 ∨ total = totalRequests then
    [{ processed := total, total := totalRequests, successful := r.successful, failed := r.failed }]
  else []

/-- The function `processResult` (ddos.js 189-209): the updated record and what was logged. -/
def processResult (totalRequests : Nat) (r : Results) (result : Result) :
    Results × List Progress :=
  let r1 := updateResults r result
  (r1, progressLog totalRequests r1)

/-- Folding a sequence of results with `processResult`, one call per result in
the order given (ddos.js 249-251 and 305-308), collecting the log. -/
def processAll (totalRequests : Nat) (start : Results) (outcomes : List Result) :
    Results × List Progress :=
  outcomes.foldl
    (fun acc result =>
      let step := processResult totalRequests acc.1 result
      (step.1, acc.2 ++ step.2))
    (start, [])

/-- The table `errorCounts` built by `displayResults` (ddos.js 172-175), as the
map from description to count; a description never entered counts 0, as
`errorCounts[error] || 0` reads it.  Descriptions are taken not to name a
member of `Object.prototype`; those `makeRequest` produces never do. -/
def errorCounts (errors : List String) : String → Nat :=
  errors.foldl (fun counts error => Function.update counts error (counts error + 1))
    (fun _ => 0)

/-- The figures `displayResults` reports. -/
structure Report where
  successful : Nat
  failed : Nat
  timeouts : Nat
  avgTime : ℚ
  minTime : ℚ
  maxTime : ℚ
  errorCounts : String → Nat

/-- The function `displayResults` (ddos.js 145-184): the average (147-149), the adjusted
minimum (152-154) and the error table (170-175).  The wall-clock figures and
the order in which the table is printed are left out. -/
def displayResults (r : Results) : Report :=
  let avgTime : ℚ :=
    if r.responseTimes.length > 0
    then r.responseTimes.foldl (fun a b => a + b) 0 / (r.responseTimes.length : ℚ)
    else 0
  let minTime : ℚ := if r.minTime = MAX_SAFE_INTEGER then 0 else r.minTime
  { successful := r.successful, failed := r.failed, timeouts := r.timeouts,
    avgTime := avgTime, minTime := minTime, maxTime := r.maxTime,
    errorCounts := if r.errors.length > 0 then errorCounts r.errors else fun _ => 0 }

/-- The function `workerFunction` (ddos.js 125-140) on one message: the results array it posts
back, given what `makeRequest` returns for each request id. -/
def workerFunction (outcome : Int → Result) (message : Int × Int) : List (Int × Result) :=
  (workerRequestIds message).map (fun requestId => (requestId, outcome requestId))

/-- The outcomes of the scenario `totalRequests = 20`: twenty successes with
elapsed times 10, 20, ..., 200. -/
def scenarioOutcomes : List Result :=
  (List.range 20).map (fun (i : Nat) =>
    { success := true, status := Status.code 200, time := 10 * ((i : ℚ) + 1), error := none })

/-- An assignment under which every request fails with a timeout. -/
def allTimeout : Int → Result :=
  fun _ => { success := false, status := Status.tag "timeout", time := 5,
             error := some "Request timeout" }

/-- A short mixed run: a success after 10 ms, a timeout, a success after 30 ms. -/
def sampleOutcomes : List Result :=
  [{ success := true, status := Status.code 200, time := 10, error := none },
   { success := false, status := Status.tag "timeout", time := 60000,
     error := some "Request timeout" },
   { success := true, status := Status.code 200, time := 30, error := none }]

/-! ## `makeRequest` -/

/-- A response as far as `makeRequest` reads it: its `status`. -/
structure HttpResponse where
  status : Int
deriving DecidableEq, Repr

/-- The value caught at ddos.js 90, as far as it is inspected: `error.response`,
`error.code`, whether `error.request` is set, and `error.message`. -/
structure RequestError where
  response : Option HttpResponse
  code : Option String
  request : Bool
  message : String
deriving DecidableEq, Repr

/-- How the awaited `axios.post` expression (ddos.js 75-80) ends. -/
inductive PostResult where
  | resolved (response : HttpResponse)
  | rejected (error : RequestError)
deriving DecidableEq, Repr

/-- What one call of `makeRequest` does besides returning: `consoleError` is the
`console.error` of line 63, `axiosPost` records that control reaches the
`axios.post` expression of line 75. -/
inductive Effect where
  | consoleError (text : String)
  | axiosPost
deriving DecidableEq, Repr

/-- The surroundings of one call of `makeRequest`: whether building the form
(lines 52-61) throws, and with what message; how the post ends; and the two
readings of `performance.now()`. -/
structure RequestEnv where
  appendFiles : Except String Unit
  post : PostResult
  startTime : ℚ
  endTime : ℚ

/-- The function `makeRequest` (ddos.js 47-120): the result returned and the effects, in
order. -/
def makeRequest (_requestId : Int) (env : RequestEnv) : Result × List Effect :=
  match env.appendFiles with
  | Except.error message =>
    ({ success := false, status := Status.tag "file_error", time := 0,
       error := some ("File error: " ++ message) },
     [Effect.consoleError ("Error reading files: " ++ message)])
  | Except.ok _ =>
    let timeTaken := env.endTime - env.startTime
    match env.post with
    | PostResult.resolved response =>
      ({ success := true, status := Status.code response.status, time := timeTaken,
         error := none },
       [Effect.axiosPost])
    | PostResult.rejected error =>
      match error.response with
      | some response =>
        ({ success := false, status := Status.code response.status, time := timeTaken,
           error := some ("HTTP error: " ++ toString response.status) },
         [Effect.axiosPost])
      | none =>
        if error.code = some "ECONNABORTED" then
          ({ success := false, status := Status.tag "timeout", time := timeTaken,
             error := some "Request timeout" },
           [Effect.axiosPost])
        else if error.request then
          ({ success := false, status := Status.tag "no_response", time := timeTaken,
             error := some "No response received" },
           [Effect.axiosPost])
        else
          ({ success := false, status := Status.tag "request_error", time := timeTaken,
             error := some ("Request error: " ++ error.message) },
           [Effect.axiosPost])

/-- A call whose failure carries neither a response, nor a code, nor a request,
caught 5 ms after the start. -/
def setupFailureEnv : RequestEnv :=
  { appendFiles := Except.ok (),
    post := PostResult.rejected
      { response := none, code := none, request := false, message := "Invalid URL" },
    startTime := 0, endTime := 5 }

/-- A call that times out after 60 s. -/
def timeoutEnv : RequestEnv :=
  { appendFiles := Except.ok (),
    post := PostResult.rejected
      { response := none, code := some "ECONNABORTED", request := true,
        message := "timeout of 60000ms exceeded" },
    startTime := 100, endTime := 60100 }

/-- A call for which building the form throws. -/
def fileErrorEnv : RequestEnv :=
  { appendFiles := Except.error "The path argument must be of type string",
    post := PostResult.resolved { status := 200 },
    startTime := 0, endTime := 0 }

/-- The outcome kinds of the specification. -/
inductive Kind where
  | Success | HttpError | Timeout | NoResponse | RequestSetupError
deriving DecidableEq, Repr

/-- The kind a result record stands for, in the specification's terms: success;
a numeric status on a failure; `'timeout'`; `'no_response'`; `'file_error'` or
`'request_error'`.  Any other record stands for no kind. -/
def Result.kind (r : Result) : Option Kind :=
  if r.success then some Kind.Success
  else match r.status with
    | Status.code _ => some Kind.HttpError
    | Status.tag s =>
      if s = "timeout" then some Kind.Timeout
      else if s = "no_response" then some Kind.NoResponse
      else if s = "file_error" ∨ s = "request_error" then some Kind.RequestSetupError
      else none

/-! ## `blastRequests` (rajvansh.js) -/

/-- How lines 46-47 of one call of `makeSingleApiCall` end: the output parsed to
a JSON value other than `null`, with `error.code` when the value has one
(`parsed`); the output parsed to `null` (`parsedNull`); or `execAsync` or
`JSON.parse` threw (`threw`). -/
inductive CallResponse where
  | parsed (errorCode : Option Int)
  | parsedNull
  | threw (message : String)
deriving DecidableEq, Repr

/-- The surroundings of one call of `makeSingleApiCall`: whether `fs.writeFile`
(line 39) succeeds, how lines 46-47 end, whether the `fs.unlink` of line 49
succeeds, and whether the `fs.unlink` of line 61 succeeds when the payload file
is still there. -/
structure CallRun where
  writeOk : Bool
  response : CallResponse
  unlinkTryOk : Bool
  unlinkCatchOk : Bool
deriving DecidableEq, Repr

/-- How the promise of an `async` call settles. -/
inductive Settled where
  | fulfilled
  | rejected
deriving DecidableEq, Repr

/-- The module-level `totalCount` and `stopFlag` (rajvansh.js 13-14), with three
counters that only observe: calls and batches dispatched by `blastRequests`,
and calls that have settled. -/
structure BlastState where
  totalCount : Nat
  stopFlag : Bool
  dispatched : Nat
  completed : Nat
  batchesIssued : Nat
deriving DecidableEq, Repr

/-- The state when `main` calls `blastRequests`. -/
def BlastState.initial : BlastState :=
  { totalCount := 0, stopFlag := false, dispatched := 0, completed := 0, batchesIssued := 0 }

/-- The `catch` block of `makeSingleApiCall` (rajvansh.js 59-62) when the payload
file is still there: the call is fulfilled when the `unlink` of line 61
succeeds and rejects when it fails. -/
def catchBlock (s : BlastState) (run : CallRun) : BlastState × Settled :=
  ({ s with completed := s.completed + 1 },
   if run.unlinkCatchOk then Settled.fulfilled else Settled.rejected)

/-- One call of `makeSingleApiCall` (rajvansh.js 16-63), from dispatch to the
moment its promise settles.  A failing `writeFile` (line 39, outside the `try`)
rejects the call.  A throw at lines 46-47, or a failing `unlink` at line 49,
enters the `catch` block with the payload file still there.  On a `null` body
line 51 throws after the file was removed at line 49, and the `unlink` of line
61 then fails, so the call rejects.  Otherwise code 429 sets `stopFlag` and
returns, and any other body increments `totalCount`. -/
def makeSingleApiCall (s : BlastState) (run : CallRun) : BlastState × Settled :=
  if run.writeOk then
    match run.response with
    | CallResponse.threw _ => catchBlock s run
    | CallResponse.parsedNull =>
      if run.unlinkTryOk then
        ({ s with completed := s.completed + 1 }, Settled.rejected)
      else catchBlock s run
    | CallResponse.parsed errorCode =>
      if run.unlinkTryOk then
        if errorCode = some 429 then
          ({ s with stopFlag := true, completed := s.completed + 1 }, Settled.fulfilled)
        else
          ({ s with totalCount := s.totalCount + 1, completed := s.completed + 1 },
           Settled.fulfilled)
      else catchBlock s run
  else
    ({ s with completed := s.completed + 1 }, Settled.rejected)

/-- One pass through the body of the `while` loop (rajvansh.js 67-71): the `for`
loop dispatches `concurrentCount` calls; `Promise.all` is fulfilled when each of
them is, and rejects as soon as one of them rejects.  `runs i` is the i-th call
to settle; the state returned is the one at the moment `Promise.all` settles,
calls still in flight at a rejection being left out. -/
def blastStep (concurrentCount : Nat) (runs : Nat → CallRun) (s : BlastState) :
    BlastState × Settled :=
  (List.range concurrentCount).foldl
    (fun acc i =>
      match acc.2 with
      | Settled.rejected => acc
      | Settled.fulfilled => makeSingleApiCall acc.1 (runs i))
    ({ s with dispatched := s.dispatched + concurrentCount,
              batchesIssued := s.batchesIssued + 1 }, Settled.fulfilled)

/-- How `blastRequests` ends: it returns, or it rejects. -/
inductive BlastEnd where
  | returned (s : BlastState)
  | rejected (s : BlastState)
deriving DecidableEq, Repr

/-- The function `blastRequests` (rajvansh.js 65-73), run for at most `fuel` tests of the loop
condition: `some` end when the loop is left, `none` when it is still running.
`runs b i` is, in batch `b` (counted from 0), the i-th call to settle. -/
def blastRequests (concurrentCount : Nat) (runs : Nat → Nat → CallRun) :
    Nat → BlastState → Option BlastEnd
  | 0, _ => none
  | fuel + 1, s =>
    if s.stopFlag then some (BlastEnd.returned s)
    else
      match blastStep concurrentCount (runs s.batchesIssued) s with
      | (t, Settled.fulfilled) => blastRequests concurrentCount runs fuel t
      | (t, Settled.rejected) => some (BlastEnd.rejected t)

/-- A call all of whose file-system operations succeed and whose body is not
`null`. -/
def CallRun.regular (run : CallRun) : Bool :=
  run.writeOk && run.unlinkTryOk && run.unlinkCatchOk
    && decide (run.response ≠ CallResponse.parsedNull)

/-- A regular call with the given response. -/
def regularRun (response : CallResponse) : CallRun :=
  { writeOk := true, response := response, unlinkTryOk := true, unlinkCatchOk := true }

/-- Runs at two calls per batch: the first batch is answered normally, the
first call to settle in the second batch sees code 429. -/
def sampleRuns : Nat → Nat → CallRun :=
  fun b i =>
    regularRun (if b = 1 ∧ i = 0 then CallResponse.parsed (some 429)
      else CallResponse.parsed none)

/-- As `sampleRuns`, but the first call to settle in the first batch receives
the body `null`. -/
def nullBodyRuns : Nat → Nat → CallRun :=
  fun b i =>
    regularRun (if b = 0 ∧ i = 0 then CallResponse.parsedNull
      else if b = 1 ∧ i = 0 then CallResponse.parsed (some 429)
      else CallResponse.parsed none)

/-- As `sampleRuns`, but `writeFile` fails for the first call to settle in the
first batch. -/
def writeFailRuns : Nat → Nat → CallRun :=
  fun b i =>
    { writeOk := !(decide (b = 0 ∧ i = 0)),
      response := if b = 1 ∧ i = 0 then CallResponse.parsed (some 429)
        else CallResponse.parsed none,
      unlinkTryOk := true, unlinkCatchOk := true }

/-! # Theorems -/

/-! ### Lemmas on `ceilDiv` -/

theorem ceilDiv_eq_ceil (a b : Nat) (hb : 1 ≤ b) :
    ((ceilDiv a b : Nat) : Int) = ⌈((a : ℚ) / (b : ℚ))⌉ := by
  have hb0 : (0 : ℚ) < b := by exact_mod_cast hb
  symm
  rw [Int.ceil_eq_iff]
  have h1 : (ceilDiv a b) * b < a + b := by
    unfold ceilDiv
    have := Nat.div_mul_le_self (a + b - 1) b
    omega
  have h2 : a ≤ (ceilDiv a b) * b := by
    unfold ceilDiv
    have := @Nat.lt_div_mul_add (a + b - 1) b (by omega)
    omega
  constructor
  · rw [lt_div_iff₀ hb0]
    have : ((ceilDiv a b * b : Nat) : ℚ) < ((a + b : Nat) : ℚ) := by exact_mod_cast h1
    push_cast at this ⊢
    linarith
  · rw [div_le_iff₀ hb0]
    have : ((a : Nat) : ℚ) ≤ ((ceilDiv a b * b : Nat) : ℚ) := by exact_mod_cast h2
    push_cast at this ⊢
    linarith

theorem ceilDiv_mul_ge (a b : Nat) (hb : 1 ≤ b) : a ≤ ceilDiv a b * b := by
  unfold ceilDiv
  have := @Nat.lt_div_mul_add (a + b - 1) b (by omega)
  omega

theorem ceilDiv_mul_lt (a b : Nat) (hb : 1 ≤ b) : ceilDiv a b * b < a + b := by
  unfold ceilDiv
  have := Nat.div_mul_le_self (a + b - 1) b
  omega

/-! ### Worker-partition mode -/

theorem distributeLoop_length (total rpw : Nat) :
    ∀ (remaining : Nat) (s : Int), (distributeLoopExact total rpw remaining s).length ≤ remaining := by
  intro remaining
  induction remaining with
  | zero => intro s; simp [distributeLoopExact]
  | succ n ih =>
    intro s
    simp only [distributeLoopExact]
    split
    · simp
    · simpa using ih _

theorem distributeLoop_getElem (total rpw : Nat) :
    ∀ (remaining : Nat) (s : Int) (k : Nat) (a c : Int),
      (distributeLoopExact total rpw remaining s)[k]? = some (a, c) →
      a = s + (k : Int) * (rpw : Int) ∧ 0 < c ∧ c = min (rpw : Int) ((total : Int) - a) := by
  intro remaining
  induction remaining with
  | zero => intro s k a c h; simp [distributeLoopExact] at h
  | succ n ih =>
    intro s k a c h
    simp only [distributeLoopExact] at h
    split at h
    · simp at h
    · rename_i hpos
      cases k with
      | zero =>
        simp only [List.getElem?_cons_zero, Option.some.injEq, Prod.mk.injEq] at h
        obtain ⟨h1, h2⟩ := h
        subst h1
        refine ⟨by simp, by omega, by omega⟩
      | succ k =>
        rw [List.getElem?_cons_succ] at h
        obtain ⟨h1, h2, h3⟩ := ih _ k a c h
        have hk : (0 : Int) ≤ (k : Int) * (rpw : Int) := by positivity
        have hmul : ((k + 1 : Nat) : Int) * (rpw : Int) = (k : Int) * (rpw : Int) + rpw := by
          push_cast; ring
        refine ⟨?_, h2, h3⟩
        rw [hmul]
        omega

theorem distributeLoop_last (total rpw : Nat) :
    ∀ (remaining : Nat) (s : Int), (total : Int) - s ≤ (remaining : Int) * (rpw : Int) →
      ∀ (k : Nat) (a c : Int),
        (distributeLoopExact total rpw remaining s)[k]? = some (a, c) →
        (distributeLoopExact total rpw remaining s)[k + 1]? = none → a + c = total := by
  intro remaining
  induction remaining with
  | zero => intro s _ k a c h; simp [distributeLoopExact] at h
  | succ n ih =>
    intro s hs k a c h hnone
    simp only [distributeLoopExact] at h hnone
    split at h
    · simp at h
    · rename_i hpos
      rw [if_neg hpos] at hnone
      have hmul : ((n + 1 : Nat) : Int) * (rpw : Int) = (n : Int) * (rpw : Int) + rpw := by
        push_cast; ring
      have hn : (0 : Int) ≤ (n : Int) * (rpw : Int) := by positivity
      rw [hmul] at hs
      cases k with
      | zero =>
        simp only [List.getElem?_cons_zero, Option.some.injEq, Prod.mk.injEq] at h
        obtain ⟨h1, h2⟩ := h
        subst h1
        rw [List.getElem?_cons_succ] at hnone
        cases n with
        | zero => simp at hs; omega
        | succ m =>
          simp only [distributeLoopExact] at hnone
          split at hnone
          · omega
          · simp at hnone
      | succ k =>
        rw [List.getElem?_cons_succ] at h hnone
        exact ih _ (by omega) k a c h hnone

theorem distributeLoop_ids (total rpw : Nat) :
    ∀ (remaining : Nat) (s : Int), 0 ≤ s → s ≤ total →
      (total : Int) - s ≤ (remaining : Int) * (rpw : Int) →
      (distributeLoopExact total rpw remaining s).flatMap workerRequestIdsExact
        = (List.range ((total : Int) - s).toNat).map (fun (i : Nat) => s + (i : Int)) := by
  intro remaining
  induction remaining with
  | zero =>
    intro s h0 h1 h2
    have : ((total : Int) - s).toNat = 0 := by simp at h2; omega
    simp [distributeLoopExact, this]
  | succ n ih =>
    intro s h0 h1 h2
    have hmul : ((n + 1 : Nat) : Int) * (rpw : Int) = (n : Int) * (rpw : Int) + rpw := by
      push_cast; ring
    have hn : (0 : Int) ≤ (n : Int) * (rpw : Int) := by positivity
    rw [hmul] at h2
    simp only [distributeLoopExact]
    split
    · rename_i hle
      have hz : (rpw : Int) ≤ 0 → (n : Int) * (rpw : Int) = 0 := by
        intro h
        have : rpw = 0 := by omega
        simp [this]
      have : ((total : Int) - s).toNat = 0 := by
        rcases le_or_lt (rpw : Int) 0 with h | h
        · have := hz h
          omega
        · omega
      simp [this]
    · rename_i hpos
      rw [List.flatMap_cons, ih _ (by omega) (by omega) (by omega)]
      have hsplit : ((total : Int) - s).toNat
          = (min (rpw : Int) ((total : Int) - s)).toNat
            + ((total : Int) - (s + min (rpw : Int) ((total : Int) - s))).toNat := by omega
      rw [hsplit, List.range_add, List.map_append, List.map_map]
      congr 1
      apply List.map_congr_left
      intro i _
      simp only [Function.comp_apply]
      push_cast
      omega

/-! ### Batch mode -/

theorem batchLoop_eq (total conc b : Nat) :
    ∀ (remaining i : Nat),
      batchLoopExact total conc b remaining i
        = (List.range (min remaining (total - (b * conc + i)))).map
            (fun j => b * conc + i + j) := by
  intro remaining
  induction remaining with
  | zero => intro i; simp [batchLoopExact]
  | succ n ih =>
    intro i
    simp only [batchLoopExact]
    split
    · rename_i hge
      have : min (n + 1) (total - (b * conc + i)) = 0 := by omega
      simp [this]
    · rename_i hlt
      have : min (n + 1) (total - (b * conc + i))
          = 1 + min n (total - (b * conc + (i + 1))) := by omega
      have r1 : List.range 1 = [0] := rfl
      rw [ih, this, List.range_add, List.map_append, List.map_map, r1]
      simp only [List.map_cons, List.map_nil, List.singleton_append,
        Nat.add_zero, List.cons.injEq, true_and]
      apply List.map_congr_left
      intro j _
      simp only [Function.comp_apply]
      omega

theorem batchRequestIds_eq (total conc b : Nat) :
    batchRequestIdsExact total conc b
      = (List.range (min conc (total - b * conc))).map (fun j => b * conc + j) := by
  unfold batchRequestIdsExact
  rw [batchLoop_eq]
  simp

theorem batches_upto_flatten (total conc : Nat) :
    ∀ m : Nat, ((List.range m).map (batchRequestIdsExact total conc)).flatten
      = List.range (min total (m * conc)) := by
  intro m
  induction m with
  | zero => simp
  | succ m ih =>
    rw [List.range_succ, List.map_append, List.flatten_append, ih]
    simp only [List.map_cons, List.map_nil, List.flatten_cons, List.flatten_nil,
      List.append_nil]
    rw [batchRequestIds_eq]
    have hmul : (m + 1) * conc = m * conc + conc := by ring
    rcases le_or_lt (m * conc) total with h | h
    · have h1 : min total (m * conc) = m * conc := by omega
      have h2 : min total ((m + 1) * conc) = m * conc + min conc (total - m * conc) := by
        omega
      rw [h1, h2, List.range_add]
    · have h1 : min conc (total - m * conc) = 0 := by omega
      have h2 : min total ((m + 1) * conc) = min total (m * conc) := by omega
      rw [h1, h2]
      simp

theorem ceilDiv_eq_div_add (a b : Nat) (hb : 1 ≤ b) :
    ceilDiv a b = a / b + (if a % b = 0 then 0 else 1) := by
  have h1 := ceilDiv_mul_ge a b hb
  have h2 := ceilDiv_mul_lt a b hb
  have h3 := Nat.div_add_mod a b
  have h4 := Nat.mod_lt a (show 0 < b by omega)
  have hcomm : b * (a / b) = (a / b) * b := Nat.mul_comm _ _
  split
  · rename_i h0
    have hlo : (a / b) * b ≤ ceilDiv a b * b := by omega
    have hhi : ceilDiv a b * b < (a / b + 1) * b := by
      have : (a / b + 1) * b = (a / b) * b + b := by ring
      omega
    have := Nat.lt_of_mul_lt_mul_right hhi
    have := Nat.le_of_mul_le_mul_right hlo (show 0 < b by omega)
    omega
  · rename_i h0
    have hlo : (a / b) * b < ceilDiv a b * b := by omega
    have hhi : ceilDiv a b * b < (a / b + 2) * b := by
      have : (a / b + 2) * b = (a / b) * b + b + b := by ring
      omega
    have := Nat.lt_of_mul_lt_mul_right hhi
    have := Nat.lt_of_mul_lt_mul_right hlo
    omega

theorem batch_length_not_final (total conc b : Nat) (hc : 1 ≤ conc)
    (hb : b + 1 < ceilDiv total conc) : (batchRequestIdsExact total conc b).length = conc := by
  rw [batchRequestIds_eq]
  simp only [List.length_map, List.length_range]
  have h2 := ceilDiv_mul_lt total conc hc
  have h3 : (b + 2) * conc ≤ ceilDiv total conc * conc := Nat.mul_le_mul_right _ hb
  have h4 : (b + 2) * conc = b * conc + conc + conc := by ring
  omega

theorem batch_length_final (total conc b : Nat) (hc : 1 ≤ conc)
    (hb : b + 1 = ceilDiv total conc) :
    (batchRequestIdsExact total conc b).length
      = if total % conc ≠ 0 then total % conc else conc := by
  rw [batchRequestIds_eq]
  simp only [List.length_map, List.length_range]
  have h0 := ceilDiv_eq_div_add total conc hc
  have h3 := Nat.div_add_mod total conc
  have h4 := Nat.mod_lt total (show 0 < conc by omega)
  have hcomm : conc * (total / conc) = (total / conc) * conc := Nat.mul_comm _ _
  by_cases hz : total % conc = 0
  · rw [if_pos hz] at h0
    have hb2 : total / conc = b + 1 := by omega
    have : (b + 1) * conc = b * conc + conc := by ring
    rw [hb2] at hcomm h3
    simp only [hz, ne_eq, not_true_eq_false, if_false]
    omega
  · rw [if_neg hz] at h0
    have hb2 : total / conc = b := by omega
    rw [hb2] at hcomm h3
    simp only [ne_eq, hz, not_false_eq_true, if_true]
    omega

/-! ### Aggregation: closed forms of the fold -/

theorem processAll_fold (T : Nat) (os : List Result) :
    ∀ (acc : Results × List Progress),
      (os.foldl (fun acc result =>
          let step := processResult T acc.1 result
          (step.1, acc.2 ++ step.2)) acc).1 = os.foldl updateResults acc.1 := by
  induction os with
  | nil => intro acc; rfl
  | cons o os ih => intro acc; simp only [List.foldl_cons]; rw [ih]; rfl

theorem processAll_fst (T : Nat) (start : Results) (os : List Result) :
    (processAll T start os).1 = os.foldl updateResults start :=
  processAll_fold T os (start, [])

theorem processAll_append (T : Nat) (start : Results) (os : List Result) (o : Result) :
    processAll T start (os ++ [o])
      = ((processResult T (processAll T start os).1 o).1,
         (processAll T start os).2 ++ (processResult T (processAll T start os).1 o).2) := by
  simp [processAll, List.foldl_append]

theorem fold_successful (os : List Result) :
    ∀ r : Results, (os.foldl updateResults r).successful
      = r.successful + (os.filter (fun o => o.success)).length := by
  induction os with
  | nil => intro r; simp
  | cons o os ih =>
    intro r
    rw [List.foldl_cons, ih]
    cases h : o.success <;> simp [updateResults, h]
    omega

theorem fold_failed (os : List Result) :
    ∀ r : Results, (os.foldl updateResults r).failed
      = r.failed + (os.filter (fun o => !o.success)).length := by
  induction os with
  | nil => intro r; simp
  | cons o os ih =>
    intro r
    rw [List.foldl_cons, ih]
    cases h : o.success <;> simp [updateResults, h]
    omega

theorem fold_timeouts (os : List Result) :
    ∀ r : Results, (os.foldl updateResults r).timeouts
      = r.timeouts
        + (os.filter (fun o => !o.success && decide (o.status = Status.tag "timeout"))).length := by
  induction os with
  | nil => intro r; simp
  | cons o os ih =>
    intro r
    rw [List.foldl_cons, ih]
    cases h : o.success
    · by_cases ht : o.status = Status.tag "timeout"
      · simp [updateResults, h, ht]
        omega
      · simp [updateResults, h, ht]
    · simp [updateResults, h]

theorem fold_responseTimes (os : List Result) :
    ∀ r : Results, (os.foldl updateResults r).responseTimes
      = r.responseTimes ++ (os.filter (fun o => o.success)).map (fun o => o.time) := by
  induction os with
  | nil => intro r; simp
  | cons o os ih =>
    intro r
    rw [List.foldl_cons, ih]
    cases h : o.success <;> simp [updateResults, h]

theorem fold_errors (os : List Result) :
    ∀ r : Results, (os.foldl updateResults r).errors
      = r.errors ++ (os.filter (fun o => !o.success)).map (fun o => errorText o.error) := by
  induction os with
  | nil => intro r; simp
  | cons o os ih =>
    intro r
    rw [List.foldl_cons, ih]
    cases h : o.success <;> simp [updateResults, h]

theorem fold_minTime (os : List Result) :
    ∀ r : Results, (os.foldl updateResults r).minTime
      = ((os.filter (fun o => o.success)).map (fun o => o.time)).foldl min r.minTime := by
  induction os with
  | nil => intro r; simp
  | cons o os ih =>
    intro r
    rw [List.foldl_cons, ih]
    cases h : o.success <;> simp [updateResults, h]

theorem fold_maxTime (os : List Result) :
    ∀ r : Results, (os.foldl updateResults r).maxTime
      = ((os.filter (fun o => o.success)).map (fun o => o.time)).foldl max r.maxTime := by
  induction os with
  | nil => intro r; simp
  | cons o os ih =>
    intro r
    rw [List.foldl_cons, ih]
    cases h : o.success <;> simp [updateResults, h]

theorem filter_success_add (os : List Result) :
    (os.filter (fun o => o.success)).length + (os.filter (fun o => !o.success)).length
      = os.length := by
  induction os with
  | nil => simp
  | cons o os ih =>
    cases h : o.success <;> simp [List.filter_cons, h] <;> omega

theorem filter_timeout_le (os : List Result) :
    (os.filter (fun o => !o.success && decide (o.status = Status.tag "timeout"))).length
      ≤ (os.filter (fun o => !o.success)).length := by
  induction os with
  | nil => simp
  | cons o os ih =>
    cases h : o.success
    · by_cases ht : o.status = Status.tag "timeout" <;> simp [List.filter_cons, h, ht] <;> omega
    · simpa [List.filter_cons, h] using ih

theorem errorCounts_fold (errors : List String) :
    ∀ (counts : String → Nat),
      errors.foldl (fun counts error => Function.update counts error (counts error + 1)) counts
        = fun e => counts e + errors.count e := by
  induction errors with
  | nil => intro counts; simp
  | cons a errors ih =>
    intro counts
    rw [List.foldl_cons, ih]
    funext e
    by_cases h : e = a
    · subst h; simp [Function.update_apply, List.count_cons]; omega
    · have h2 : ¬ (a = e) := fun h3 => h h3.symm
      simp [Function.update_apply, List.count_cons, h, h2]

theorem errorCounts_eq_count (errors : List String) :
    errorCounts errors = fun e => errors.count e := by
  unfold errorCounts
  rw [errorCounts_fold]
  simp

theorem foldl_add_eq_sum (l : List ℚ) : ∀ a : ℚ, l.foldl (fun a b => a + b) a = a + l.sum := by
  induction l with
  | nil => intro a; simp
  | cons x l ih => intro a; rw [List.foldl_cons, ih, List.sum_cons]; ring

theorem foldl_min_le (l : List ℚ) :
    ∀ a : ℚ, l.foldl min a ≤ a ∧ ∀ t ∈ l, l.foldl min a ≤ t := by
  induction l with
  | nil => intro a; simp
  | cons x l ih =>
    intro a
    rw [List.foldl_cons]
    obtain ⟨h1, h2⟩ := ih (min a x)
    refine ⟨le_trans h1 (min_le_left _ _), ?_⟩
    intro t ht
    rcases List.mem_cons.1 ht with h | h
    · subst h; exact le_trans h1 (min_le_right _ _)
    · exact h2 t h

theorem le_foldl_max (l : List ℚ) :
    ∀ a : ℚ, a ≤ l.foldl max a ∧ ∀ t ∈ l, t ≤ l.foldl max a := by
  induction l with
  | nil => intro a; simp
  | cons x l ih =>
    intro a
    rw [List.foldl_cons]
    obtain ⟨h1, h2⟩ := ih (max a x)
    refine ⟨le_trans (le_max_left _ _) h1, ?_⟩
    intro t ht
    rcases List.mem_cons.1 ht with h | h
    · subst h; exact le_trans (le_max_right _ _) h1
    · exact h2 t h

theorem avg_bounds (l : List ℚ) (lo hi : ℚ) (hl : 0 < l.length)
    (hlo : ∀ t ∈ l, lo ≤ t) (hhi : ∀ t ∈ l, t ≤ hi) :
    lo ≤ l.sum / (l.length : ℚ) ∧ l.sum / (l.length : ℚ) ≤ hi := by
  have hpos : (0 : ℚ) < (l.length : ℚ) := by exact_mod_cast hl
  have h1 := List.card_nsmul_le_sum l lo hlo
  have h2 := List.sum_le_card_nsmul l hi hhi
  rw [nsmul_eq_mul] at h1 h2
  constructor
  · rw [le_div_iff₀ hpos]; linarith
  · rw [div_le_iff₀ hpos]; linarith

theorem foldl_min_mem (l : List ℚ) :
    ∀ a : ℚ, l.foldl min a = a ∨ l.foldl min a ∈ l := by
  induction l with
  | nil => intro a; simp
  | cons x l ih =>
    intro a
    rw [List.foldl_cons]
    rcases ih (min a x) with h | h
    · rcases min_choice a x with h2 | h2
      · left; rw [h, h2]
      · right; rw [h, h2]; exact List.mem_cons_self _ _
    · right; exact List.mem_cons_of_mem _ h

theorem foldl_max_mem (l : List ℚ) :
    ∀ a : ℚ, l.foldl max a = a ∨ l.foldl max a ∈ l := by
  induction l with
  | nil => intro a; simp
  | cons x l ih =>
    intro a
    rw [List.foldl_cons]
    rcases ih (max a x) with h | h
    · rcases max_choice a x with h2 | h2
      · left; rw [h, h2]
      · right; rw [h, h2]; exact List.mem_cons_self _ _
    · right; exact List.mem_cons_of_mem _ h

/-! ### Below `2 ^ 53` the loops do not round -/

theorem log2Fuel_eq : ∀ (fuel n : Nat), n ≤ fuel → log2Fuel fuel n = Nat.log2 n := by
  intro fuel
  induction fuel with
  | zero =>
    intro n h
    have : n = 0 := by omega
    subst this
    simp [log2Fuel, Nat.log2]
  | succ f ih =>
    intro n h
    rw [log2Fuel, Nat.log2]
    by_cases h2 : n < 2
    · rw [if_pos h2, if_neg (by omega)]
    · rw [if_neg h2, if_pos (by omega), ih]
      omega

theorem log2_eq (n : Nat) : log2 n = Nat.log2 n := log2Fuel_eq n n (le_refl n)

theorem roundNat_of_lt (n : Nat) (h : n < 2 ^ 53) : roundNat n = n := by
  unfold roundNat
  rw [if_pos h]

theorem roundDouble_of_lt (n : Int) (h0 : 0 ≤ n) (h : n < 2 ^ 53) : roundDouble n = n := by
  unfold roundDouble
  rw [roundNat_of_lt _ (by omega), Int.sign_mul_natAbs]

theorem mathCeilDiv_eq_ceilDiv (a b : Nat) (ha : a < 2 ^ 53) (hb : 1 ≤ b) :
    mathCeilDiv a b = ceilDiv a b := by
  rw [ceilDiv_eq_div_add a b hb]
  unfold mathCeilDiv
  have hdiv := Nat.div_mul_le_self a b
  have hmod := Nat.div_add_mod a b
  simp only
  by_cases hq : 2 ^ 52 ≤ a / b
  · rw [if_pos hq]
    have hb1 : b = 1 := by
      by_contra hne
      have hb2 : 2 ≤ b := by omega
      have : 2 ^ 52 * 2 ≤ a / b * b := Nat.mul_le_mul hq hb2
      omega
    subst hb1
    have hl : log2 (a / 1) = 52 := by
      rw [log2_eq, Nat.div_one]
      have hne : a ≠ 0 := by
        rw [Nat.div_one] at hq
        omega
      have h1 : a.log2 < 53 := (Nat.log2_lt hne).2 ha
      have h2 : ¬ a.log2 < 52 := by
        rw [Nat.log2_lt hne]
        rw [Nat.div_one] at hq
        omega
      omega
    rw [hl]
    simp [roundHalfEven, Nat.mod_one]
  · rw [if_neg hq]
    by_cases hr : a % b = 0
    · simp [hr]
    · rw [if_neg hr, if_neg hr]
      by_cases hz : a / b = 0
      · simp [hz]
      · rw [if_neg hz]
        have hl : 2 ^ log2 (a / b) ≤ a / b := by
          rw [log2_eq]
          exact Nat.log2_self_le hz
        have hl52 : log2 (a / b) < 52 := by
          rw [log2_eq, Nat.log2_lt hz]
          omega
        have hpow : 2 ^ (53 - log2 (a / b)) * 2 ^ log2 (a / b) = 2 ^ 53 := by
          rw [← pow_add]
          congr 1
          omega
        have hlt : b < 2 ^ (53 - log2 (a / b)) := by
          by_contra hge
          have hge2 : 2 ^ (53 - log2 (a / b)) ≤ b := by omega
          have : 2 ^ (53 - log2 (a / b)) * 2 ^ log2 (a / b) ≤ b * (a / b) :=
            Nat.mul_le_mul hge2 hl
          have hc : b * (a / b) = a / b * b := Nat.mul_comm _ _
          omega
        have hr1 : 1 ≤ a % b := by omega
        have : 1 * 2 ^ (53 - log2 (a / b)) ≤ a % b * 2 ^ (53 - log2 (a / b)) :=
          Nat.mul_le_mul_right _ hr1
        rw [if_neg (by omega)]

theorem distributeLoop_eq_exact (total rpw : Nat) (hsafe : total < 2 ^ 53) :
    ∀ (remaining : Nat) (s : Int), 0 ≤ s → s ≤ total →
      distributeLoop total rpw remaining s = distributeLoopExact total rpw remaining s := by
  have hT : (total : Int) < 2 ^ 53 := by exact_mod_cast hsafe
  intro remaining
  induction remaining with
  | zero => intro s _ _; rfl
  | succ n ih =>
    intro s h0 h1
    simp only [distributeLoop, distributeLoopExact]
    rw [roundDouble_of_lt _ (by omega) (by omega)]
    split
    · rfl
    · rename_i hpos
      rw [roundDouble_of_lt _ (by omega) (by omega), ih _ (by omega) (by omega)]

theorem distributeRequests_eq_exact (total numWorkers : Nat) (hsafe : total < 2 ^ 53)
    (hw : 1 ≤ numWorkers) :
    distributeRequests total numWorkers = distributeRequestsExact total numWorkers := by
  unfold distributeRequests distributeRequestsExact
  rw [mathCeilDiv_eq_ceilDiv total numWorkers hsafe hw]
  exact distributeLoop_eq_exact total _ hsafe numWorkers 0 (le_refl _) (by positivity)

theorem workerRequestIds_eq_exact (total : Nat) (hsafe : total < 2 ^ 53) (a c : Int)
    (h0 : 0 ≤ a) (h1 : a + c ≤ total) :
    workerRequestIds (a, c) = workerRequestIdsExact (a, c) := by
  have hT : (total : Int) < 2 ^ 53 := by exact_mod_cast hsafe
  unfold workerRequestIds workerRequestIdsExact
  apply List.map_congr_left
  intro i hi
  have hi2 : i < c.toNat := List.mem_range.1 hi
  exact roundDouble_of_lt _ (by omega) (by omega)

theorem distributeRequests_flatMap_eq_exact (total numWorkers : Nat) (hsafe : total < 2 ^ 53)
    (hw : 1 ≤ numWorkers) :
    (distributeRequests total numWorkers).flatMap workerRequestIds
      = (distributeRequestsExact total numWorkers).flatMap workerRequestIdsExact := by
  rw [distributeRequests_eq_exact total numWorkers hsafe hw]
  apply List.flatMap_congr
  intro m hm
  obtain ⟨k, hk⟩ := List.mem_iff_getElem?.1 hm
  obtain ⟨a, c⟩ := m
  obtain ⟨h1, h2, h3⟩ := distributeLoop_getElem _ _ _ _ _ _ _ hk
  have hk0 : (0 : Int) ≤ (k : Int) * (ceilDiv total numWorkers : Int) := by positivity
  exact workerRequestIds_eq_exact total hsafe a c (by omega) (by omega)

theorem batchLoop_eq_exact (total conc b : Nat) (hsafe : total < 2 ^ 53) :
    ∀ (remaining i : Nat), b * conc + i ≤ total →
      batchLoop total conc b remaining i = batchLoopExact total conc b remaining i := by
  intro remaining
  induction remaining with
  | zero => intro i _; rfl
  | succ n ih =>
    intro i hi
    simp only [batchLoop, batchLoopExact]
    rw [roundNat_of_lt (b * conc) (by omega), roundNat_of_lt (b * conc + i) (by omega)]
    split
    · rfl
    · rename_i hlt
      rw [ih (i + 1) (by omega)]

theorem batches_eq_exact (total conc : Nat) (hsafe : total < 2 ^ 53) (hc : 1 ≤ conc) :
    batches total conc = batchesExact total conc := by
  unfold batches batchesExact
  rw [mathCeilDiv_eq_ceilDiv total conc hsafe hc]
  apply List.map_congr_left
  intro b hb
  have hb2 : b < ceilDiv total conc := List.mem_range.1 hb
  have h2 := ceilDiv_mul_lt total conc hc
  have h3 : (b + 1) * conc ≤ ceilDiv total conc * conc := Nat.mul_le_mul_right _ hb2
  have h4 : (b + 1) * conc = b * conc + conc := by ring
  unfold batchRequestIds batchRequestIdsExact
  exact batchLoop_eq_exact total conc b hsafe conc 0 (by omega)

/-! ### Facts shared by the claims -/

theorem distributeRequests_cover (totalRequests numWorkers : Nat) (hw : 1 ≤ numWorkers) :
    (totalRequests : Int) - 0
      ≤ (numWorkers : Int) * (ceilDiv totalRequests numWorkers : Int) := by
  have := ceilDiv_mul_ge totalRequests numWorkers hw
  have h : ((totalRequests : Nat) : Int)
      ≤ ((ceilDiv totalRequests numWorkers * numWorkers : Nat) : Int) := by
    exact_mod_cast this
  push_cast at h
  linarith

theorem distributeRequests_ids (totalRequests numWorkers : Nat) (hw : 1 ≤ numWorkers) :
    (distributeRequestsExact totalRequests numWorkers).flatMap workerRequestIdsExact
      = (List.range totalRequests).map (fun (i : Nat) => (i : Int)) := by
  have := distributeLoop_ids totalRequests (ceilDiv totalRequests numWorkers) numWorkers 0
    (le_refl _) (by positivity) (distributeRequests_cover totalRequests numWorkers hw)
  unfold distributeRequestsExact
  rw [this]
  simp

theorem batches_flatten (totalRequests concurrentRequests : Nat)
    (hc : 1 ≤ concurrentRequests) :
    (batchesExact totalRequests concurrentRequests).flatten = List.range totalRequests := by
  unfold batchesExact
  rw [batches_upto_flatten]
  have := ceilDiv_mul_ge totalRequests concurrentRequests hc
  congr 1
  omega

theorem processAll_total (totalRequests : Nat) (outcomes : List Result) :
    (processAll totalRequests results outcomes).1.successful
      + (processAll totalRequests results outcomes).1.failed = outcomes.length := by
  have hadd := filter_success_add outcomes
  rw [processAll_fst, fold_successful, fold_failed]
  simp only [results]
  omega

theorem progressLog_after (totalRequests : Nat) (outcomes : List Result) (o : Result) :
    (processResult totalRequests (processAll totalRequests results outcomes).1 o).2
      = if (outcomes.length + 1) % 10 = 0 ∨ outcomes.length + 1 = totalRequests then
          [{ processed := outcomes.length + 1, total := totalRequests,
             successful := (processAll totalRequests results (outcomes ++ [o])).1.successful,
             failed := (processAll totalRequests results (outcomes ++ [o])).1.failed }]
        else [] := by
  have happ := processAll_append totalRequests results outcomes o
  have htot := processAll_total totalRequests (outcomes ++ [o])
  rw [happ] at htot
  rw [happ]
  simp only [List.length_append, List.length_singleton] at htot
  simp only [processResult] at htot ⊢
  simp only [progressLog, htot]

theorem processAll_log_processed (totalRequests : Nat) (outcomes : List Result) :
    (processAll totalRequests results outcomes).2.map (fun p => p.processed)
      = ((List.range outcomes.length).map (fun k => k + 1)).filter
          (fun k => decide (k % 10 = 0 ∨ k = totalRequests)) := by
  induction outcomes using List.reverseRecOn with
  | nil => simp [processAll]
  | append_singleton os o ih =>
    rw [processAll_append]
    simp only [List.map_append, ih, List.length_append, List.length_singleton,
      List.range_succ, List.filter_append]
    congr 1
    rw [progressLog_after]
    by_cases h : (os.length + 1) % 10 = 0 ∨ os.length + 1 = totalRequests
    · simp [h]
    · simp [h]

theorem displayResults_minTime (r : Results) :
    (displayResults r).minTime = if r.minTime = MAX_SAFE_INTEGER then 0 else r.minTime := rfl

theorem scenario_times :
    (scenarioOutcomes.filter (fun o => o.success)).map (fun o => o.time)
      = (List.range 20).map (fun (i : Nat) => 10 * ((i : ℚ) + 1)) := by
  unfold scenarioOutcomes
  generalize List.range 20 = l
  induction l with
  | nil => rfl
  | cons a l ih => simpa [List.filter_cons] using ih

theorem foldl_min_steps (n : Nat) (init : ℚ) :
    ((List.range (n + 1)).map (fun (i : Nat) => 10 * ((i : ℚ) + 1))).foldl min init
      = min init 10 := by
  induction n with
  | zero =>
    have r1 : List.range 1 = [0] := rfl
    simp [r1]
  | succ n ih =>
    rw [List.range_succ, List.map_append, List.foldl_append, ih]
    simp only [List.map_cons, List.map_nil, List.foldl_cons, List.foldl_nil]
    have h : (10 : ℚ) ≤ 10 * (((n + 1 : Nat) : ℚ) + 1) := by
      have : (0 : ℚ) ≤ ((n + 1 : Nat) : ℚ) := by positivity
      linarith
    rw [min_assoc, min_eq_left h]

theorem foldl_max_steps (n : Nat) (init : ℚ) :
    ((List.range (n + 1)).map (fun (i : Nat) => 10 * ((i : ℚ) + 1))).foldl max init
      = max init (10 * ((n : ℚ) + 1)) := by
  induction n with
  | zero =>
    have r1 : List.range 1 = [0] := rfl
    simp [r1]
  | succ n ih =>
    rw [List.range_succ, List.map_append, List.foldl_append, ih]
    simp only [List.map_cons, List.map_nil, List.foldl_cons, List.foldl_nil]
    have h : (10 : ℚ) * ((n : ℚ) + 1) ≤ 10 * (((n + 1 : Nat) : ℚ) + 1) := by
      push_cast
      linarith
    rw [max_assoc, max_eq_right h]

/-! ### `blastRequests` -/

theorem makeSingleApiCall_counters (s : BlastState) (run : CallRun) :
    (makeSingleApiCall s run).1.dispatched = s.dispatched ∧
    (makeSingleApiCall s run).1.batchesIssued = s.batchesIssued := by
  obtain ⟨writeOk, response, unlinkTryOk, unlinkCatchOk⟩ := run
  cases writeOk <;> cases response <;> cases unlinkTryOk <;>
    simp [makeSingleApiCall, catchBlock]
  split <;> simp

theorem makeSingleApiCall_regular (s : BlastState) (run : CallRun)
    (h : run.regular = true) :
    (makeSingleApiCall s run).2 = Settled.fulfilled ∧
    (makeSingleApiCall s run).1.completed = s.completed + 1 ∧
    (makeSingleApiCall s run).1.stopFlag
      = (s.stopFlag || decide (run.response = CallResponse.parsed (some 429))) := by
  obtain ⟨writeOk, response, unlinkTryOk, unlinkCatchOk⟩ := run
  simp only [CallRun.regular, Bool.and_eq_true, decide_eq_true_eq] at h
  obtain ⟨⟨⟨h1, h2⟩, h3⟩, h4⟩ := h
  subst h1 h2 h3
  cases response with
  | parsed errorCode =>
    by_cases hc : errorCode = some 429
    · simp [makeSingleApiCall, hc]
    · simp [makeSingleApiCall, hc]
  | parsedNull => exact absurd rfl h4
  | threw message => simp [makeSingleApiCall, catchBlock]

theorem foldl_calls_counters (runs : Nat → CallRun) (l : List Nat) :
    ∀ acc : BlastState × Settled,
      (l.foldl (fun acc i =>
          match acc.2 with
          | Settled.rejected => acc
          | Settled.fulfilled => makeSingleApiCall acc.1 (runs i)) acc).1.dispatched
        = acc.1.dispatched ∧
      (l.foldl (fun acc i =>
          match acc.2 with
          | Settled.rejected => acc
          | Settled.fulfilled => makeSingleApiCall acc.1 (runs i)) acc).1.batchesIssued
        = acc.1.batchesIssued := by
  induction l with
  | nil => intro acc; simp
  | cons a l ih =>
    intro acc
    simp only [List.foldl_cons]
    obtain ⟨st, settled⟩ := acc
    cases settled with
    | rejected => exact ih _
    | fulfilled =>
      obtain ⟨h1, h2⟩ := ih (makeSingleApiCall st (runs a))
      obtain ⟨g1, g2⟩ := makeSingleApiCall_counters st (runs a)
      exact ⟨by rw [h1, g1], by rw [h2, g2]⟩

theorem foldl_calls_regular (runs : Nat → CallRun) (l : List Nat)
    (hreg : ∀ i ∈ l, (runs i).regular = true) :
    ∀ st : BlastState,
      (l.foldl (fun acc i =>
          match acc.2 with
          | Settled.rejected => acc
          | Settled.fulfilled => makeSingleApiCall acc.1 (runs i))
          (st, Settled.fulfilled)).2 = Settled.fulfilled ∧
      (l.foldl (fun acc i =>
          match acc.2 with
          | Settled.rejected => acc
          | Settled.fulfilled => makeSingleApiCall acc.1 (runs i))
          (st, Settled.fulfilled)).1.completed = st.completed + l.length ∧
      (l.foldl (fun acc i =>
          match acc.2 with
          | Settled.rejected => acc
          | Settled.fulfilled => makeSingleApiCall acc.1 (runs i))
          (st, Settled.fulfilled)).1.stopFlag
        = (st.stopFlag
            || l.any (fun i => decide ((runs i).response = CallResponse.parsed (some 429)))) := by
  induction l with
  | nil => intro st; simp
  | cons a l ih =>
    intro st
    obtain ⟨g1, g2, g3⟩ := makeSingleApiCall_regular st (runs a)
      (hreg a (List.mem_cons_self _ _))
    have hstep : makeSingleApiCall st (runs a)
        = ((makeSingleApiCall st (runs a)).1, Settled.fulfilled) := by
      rw [← g1]
    obtain ⟨h1, h2, h3⟩ := ih (fun i hi => hreg i (List.mem_cons_of_mem _ hi))
      (makeSingleApiCall st (runs a)).1
    simp only [List.foldl_cons, List.length_cons, List.any_cons]
    rw [hstep]
    refine ⟨h1, by rw [h2, g2]; omega, ?_⟩
    rw [h3, g3, Bool.or_assoc]

theorem blastStep_counters (concurrentCount : Nat) (runs : Nat → CallRun) (s : BlastState) :
    (blastStep concurrentCount runs s).1.dispatched = s.dispatched + concurrentCount ∧
    (blastStep concurrentCount runs s).1.batchesIssued = s.batchesIssued + 1 := by
  unfold blastStep
  exact foldl_calls_counters runs (List.range concurrentCount) _

theorem blastStep_regular (concurrentCount : Nat) (runs : Nat → CallRun) (s : BlastState)
    (hreg : ∀ i, i < concurrentCount → (runs i).regular = true) :
    (blastStep concurrentCount runs s).2 = Settled.fulfilled ∧
    (blastStep concurrentCount runs s).1.completed = s.completed + concurrentCount ∧
    (blastStep concurrentCount runs s).1.stopFlag
      = (s.stopFlag || (List.range concurrentCount).any
          (fun i => decide ((runs i).response = CallResponse.parsed (some 429)))) := by
  unfold blastStep
  obtain ⟨h1, h2, h3⟩ := foldl_calls_regular runs (List.range concurrentCount)
    (fun i hi => hreg i (List.mem_range.1 hi))
    { s with dispatched := s.dispatched + concurrentCount,
             batchesIssued := s.batchesIssued + 1 }
  refine ⟨h1, ?_, h3⟩
  rw [h2, List.length_range]

theorem blastRequests_step (concurrentCount : Nat) (runs : Nat → Nat → CallRun)
    (fuel : Nat) (s : BlastState) (hstop : s.stopFlag = false)
    (hful : (blastStep concurrentCount (runs s.batchesIssued) s).2 = Settled.fulfilled) :
    blastRequests concurrentCount runs (fuel + 1) s
      = blastRequests concurrentCount runs fuel
          (blastStep concurrentCount (runs s.batchesIssued) s).1 := by
  rw [blastRequests, if_neg (by simp [hstop])]
  rcases hst : blastStep concurrentCount (runs s.batchesIssued) s with ⟨t, settled⟩
  rw [hst] at hful
  simp only at hful
  subst hful
  rfl

theorem blastRequests_run (concurrentCount : Nat) (runs : Nat → Nat → CallRun)
    (j : Nat)
    (hregular : ∀ b, b ≤ j → ∀ i, i < concurrentCount → (runs b i).regular = true)
    (hhit : ∃ i, i < concurrentCount ∧ (runs j i).response = CallResponse.parsed (some 429))
    (hclean : ∀ b, b < j → ∀ i, i < concurrentCount →
      (runs b i).response ≠ CallResponse.parsed (some 429)) :
    ∀ (n : Nat) (s : BlastState), s.stopFlag = false → s.batchesIssued + n = j →
      s.dispatched = concurrentCount * s.batchesIssued → s.completed = s.dispatched →
      ∀ fuel : Nat, n + 2 ≤ fuel →
        ∃ t : BlastState,
          blastRequests concurrentCount runs fuel s = some (BlastEnd.returned t) ∧
          t.stopFlag = true ∧ t.batchesIssued = j + 1 ∧
          t.dispatched = concurrentCount * (j + 1) ∧ t.completed = t.dispatched := by
  intro n
  induction n with
  | zero =>
    intro s hstop hb hd hc fuel hfuel
    obtain ⟨f, rfl⟩ : ∃ f, fuel = f + 2 := ⟨fuel - 2, by omega⟩
    have hj : s.batchesIssued = j := by omega
    obtain ⟨h1, h2⟩ := blastStep_counters concurrentCount (runs s.batchesIssued) s
    obtain ⟨h5, h3, h4⟩ := blastStep_regular concurrentCount (runs s.batchesIssued) s
      (hregular _ (by omega))
    have hflag : (blastStep concurrentCount (runs s.batchesIssued) s).1.stopFlag = true := by
      rw [h4, hstop, hj]
      obtain ⟨i, hi, hr⟩ := hhit
      simp only [Bool.false_or, List.any_eq_true, List.mem_range, decide_eq_true_eq]
      exact ⟨i, hi, hr⟩
    refine ⟨(blastStep concurrentCount (runs s.batchesIssued) s).1, ?_, hflag, ?_, ?_, ?_⟩
    · rw [blastRequests_step concurrentCount runs (f + 1) s hstop h5, blastRequests,
        if_pos hflag]
    · rw [h2, hj]
    · rw [h1, hd, hj, Nat.mul_succ]
    · rw [h3, h1, hc]
  | succ n ih =>
    intro s hstop hb hd hc fuel hfuel
    obtain ⟨f, rfl⟩ : ∃ f, fuel = f + 1 := ⟨fuel - 1, by omega⟩
    have hlt : s.batchesIssued < j := by omega
    obtain ⟨h1, h2⟩ := blastStep_counters concurrentCount (runs s.batchesIssued) s
    obtain ⟨h5, h3, h4⟩ := blastStep_regular concurrentCount (runs s.batchesIssued) s
      (hregular _ (by omega))
    have hflag : (blastStep concurrentCount (runs s.batchesIssued) s).1.stopFlag = false := by
      rw [h4, hstop]
      simp only [Bool.false_or, List.any_eq_false, List.mem_range, decide_eq_true_eq]
      intro i hi
      exact hclean _ hlt i hi
    obtain ⟨t, ht, hrest⟩ := ih (blastStep concurrentCount (runs s.batchesIssued) s).1 hflag
      (by rw [h2]; omega) (by rw [h1, h2, hd, Nat.mul_succ]) (by rw [h3, h1, hc]) f (by omega)
    refine ⟨t, ?_, hrest⟩
    rw [blastRequests_step concurrentCount runs f s hstop h5]
    exact ht

/-! ## The claims -/

/-- Counterexample to C1 as stated: at `totalRequests = 13510798882111492` (an
integer-valued double above `2 ^ 53`) and 3 workers, the quotient rounds down
before the ceiling is taken, so three ranges of 4503599627370497 requests are
posted, not of `ceil(totalRequests / 3) = 4503599627370498`, and the workers
execute `totalRequests - 1` requests. -/
theorem worker_partition_counterexample :
    distributeRequests 13510798882111492 3
      = [(0, 4503599627370497), (4503599627370497, 4503599627370497),
         (9007199254740994, 4503599627370497)] ∧
    ceilDiv 13510798882111492 3 = 4503599627370498 ∧
    ((distributeRequests 13510798882111492 3).flatMap workerRequestIds).length
      = 13510798882111491 := by
  have h : distributeRequests 13510798882111492 3
      = [(0, 4503599627370497), (4503599627370497, 4503599627370497),
         (9007199254740994, 4503599627370497)] := by decide
  refine ⟨h, by decide, ?_⟩
  rw [h]
  simp [workerRequestIds]

/-- C1, amended. Worker-partition mode, for `totalRequests` in the safe-integer
range (`totalRequests < 2 ^ 53`) and `numWorkers ≥ 1`: at most `numWorkers`
messages are posted; the k-th posted range starts at
`k * ceil(totalRequests / numWorkers)` (so the first starts at 0) and has a
positive count; a range that is followed by another has exactly
`ceil(totalRequests / numWorkers)` requests and the next range starts where it
ends; the last posted range holds the remainder and ends at `totalRequests`;
and the request ids executed by the workers, range after range, are exactly
`0, 1, ..., totalRequests - 1`, each once. -/
theorem worker_partition_exact (totalRequests numWorkers : Nat)
    (hsafe : totalRequests < 2 ^ 53) (hw : 1 ≤ numWorkers) :
    (distributeRequests totalRequests numWorkers).length ≤ numWorkers ∧
    (∀ (startId count : Int),
      (distributeRequests totalRequests numWorkers)[0]? = some (startId, count) →
        startId = 0) ∧
    (∀ (k : Nat) (startId count : Int),
      (distributeRequests totalRequests numWorkers)[k]? = some (startId, count) →
        startId = (k : Int) * (ceilDiv totalRequests numWorkers : Int) ∧ 0 < count ∧
        (∀ (nextStart nextCount : Int),
          (distributeRequests totalRequests numWorkers)[k + 1]? = some (nextStart, nextCount) →
            count = (ceilDiv totalRequests numWorkers : Int) ∧ nextStart = startId + count) ∧
        ((distributeRequests totalRequests numWorkers)[k + 1]? = none →
            count = (totalRequests : Int) - (k : Int) * (ceilDiv totalRequests numWorkers : Int) ∧
            count ≤ (ceilDiv totalRequests numWorkers : Int) ∧
            startId + count = totalRequests)) ∧
    (distributeRequests totalRequests numWorkers).flatMap workerRequestIds
      = (List.range totalRequests).map (fun (i : Nat) => (i : Int)) := by
  have hcover := distributeRequests_cover totalRequests numWorkers hw
  rw [distributeRequests_flatMap_eq_exact totalRequests numWorkers hsafe hw,
    distributeRequests_eq_exact totalRequests numWorkers hsafe hw]
  refine ⟨distributeLoop_length _ _ _ _, ?_, ?_, ?_⟩
  · intro startId count h
    have := (distributeLoop_getElem _ _ _ _ _ _ _ h).1
    simpa using this
  · intro k startId count h
    obtain ⟨h1, h2, h3⟩ := distributeLoop_getElem _ _ _ _ _ _ _ h
    have hk : (0 : Int) ≤ (k : Int) * (ceilDiv totalRequests numWorkers : Int) := by positivity
    refine ⟨by omega, h2, ?_, ?_⟩
    · intro nextStart nextCount hn
      obtain ⟨g1, g2, g3⟩ := distributeLoop_getElem _ _ _ _ _ _ _ hn
      have hmul : ((k + 1 : Nat) : Int) * (ceilDiv totalRequests numWorkers : Int)
          = (k : Int) * (ceilDiv totalRequests numWorkers : Int)
            + (ceilDiv totalRequests numWorkers : Int) := by
        push_cast; ring
      rw [hmul] at g1
      omega
    · intro hnone
      have := distributeLoop_last _ _ _ _ hcover k startId count h hnone
      omega
  · exact distributeRequests_ids totalRequests numWorkers hw

/-- Witness for C1 amended: 10 requests over 3 workers are posted as `(0,4)`,
`(4,4)`, `(8,2)`, and the workers execute the ids 0 to 9. -/
theorem worker_partition_exact_witness :
    (10 < 2 ^ 53 ∧ 1 ≤ 3) ∧ distributeRequests 10 3 = [(0, 4), (4, 4), (8, 2)] ∧
    (distributeRequests 10 3).flatMap workerRequestIds
      = (List.range 10).map (fun (i : Nat) => (i : Int)) :=
  ⟨⟨by decide, by decide⟩, by decide,
   (worker_partition_exact 10 3 (by decide) (by decide)).2.2.2⟩

/-- Counterexample to C2 as stated: at `totalRequests = 13510798882111492` and
concurrency 3 the loop bound `Math.ceil(totalRequests / 3)` is 4503599627370497,
one batch fewer than `ceil(totalRequests / 3) = 4503599627370498`, and batch
3002399751580331 dispatches the id 9007199254740992 twice and 9007199254740993
not at all. -/
theorem batch_mode_counterexample :
    (batches 13510798882111492 3).length = 4503599627370497 ∧
    ceilDiv 13510798882111492 3 = 4503599627370498 ∧
    (batches 13510798882111492 3)[3002399751580331]?
      = some [9007199254740992, 9007199254740992, 9007199254740994] := by
  have hlen : mathCeilDiv 13510798882111492 3 = 4503599627370497 := by decide
  refine ⟨by simp [batches, hlen], by decide, ?_⟩
  have hb : batchRequestIds 13510798882111492 3 3002399751580331
      = [9007199254740992, 9007199254740992, 9007199254740994] := by decide
  unfold batches
  rw [List.getElem?_map, hlen, List.getElem?_range (by decide), Option.map_some', hb]

/-- C2, amended. Batch mode, for `totalRequests` in the safe-integer range
(`totalRequests < 2 ^ 53`) and `concurrentRequests ≥ 1`: the request ids
dispatched, batch after batch, are exactly `0, 1, ..., totalRequests - 1` in
ascending order; `ceil(totalRequests / concurrentRequests)` batches are issued;
every batch before the final one holds `concurrentRequests` requests; the final
batch holds `totalRequests mod concurrentRequests` requests when that is
non-zero and `concurrentRequests` otherwise. -/
theorem batch_mode_exact (totalRequests concurrentRequests : Nat)
    (hsafe : totalRequests < 2 ^ 53) (hc : 1 ≤ concurrentRequests) :
    (batches totalRequests concurrentRequests).flatten = List.range totalRequests ∧
    (batches totalRequests concurrentRequests).length
      = ceilDiv totalRequests concurrentRequests ∧
    (∀ (b : Nat) (ids : List Nat),
      (batches totalRequests concurrentRequests)[b]? = some ids →
        (b + 1 < (batches totalRequests concurrentRequests).length →
          ids.length = concurrentRequests) ∧
        (b + 1 = (batches totalRequests concurrentRequests).length →
          ids.length = if totalRequests % concurrentRequests ≠ 0
            then totalRequests % concurrentRequests else concurrentRequests)) := by
  rw [batches_eq_exact totalRequests concurrentRequests hsafe hc]
  have hlen : (batchesExact totalRequests concurrentRequests).length
      = ceilDiv totalRequests concurrentRequests := by simp [batchesExact]
  refine ⟨batches_flatten totalRequests concurrentRequests hc, hlen, ?_⟩
  · intro b ids h
    have hids : ids = batchRequestIdsExact totalRequests concurrentRequests b := by
      unfold batchesExact at h
      rw [List.getElem?_map] at h
      rcases hr : (List.range (ceilDiv totalRequests concurrentRequests))[b]? with _ | v
      · rw [hr] at h; simp at h
      · rw [hr] at h
        have hv : v = b := by
          have := List.getElem?_eq_some_iff.1 hr
          obtain ⟨hb, hv⟩ := this
          simpa using hv.symm
        subst hv
        simpa using h.symm
    rw [hlen, hids]
    exact ⟨fun hb => batch_length_not_final _ _ _ hc hb,
      fun hb => batch_length_final _ _ _ hc hb⟩

/-- Witness for C2 amended: 7 requests at concurrency 3 go out as `[0,1,2]`,
`[3,4,5]`, `[6]`. -/
theorem batch_mode_exact_witness :
    (7 < 2 ^ 53 ∧ 1 ≤ 3) ∧ batches 7 3 = [[0, 1, 2], [3, 4, 5], [6]] ∧
    (batches 7 3).flatten = List.range 7 :=
  ⟨⟨by decide, by decide⟩, by decide, (batch_mode_exact 7 3 (by decide) (by decide)).1⟩

/-- C3. Folding any finite sequence of outcomes with `processResult` from the
empty record: `successful + failed` is the number of outcomes folded,
`timeouts ≤ failed`, `responseTimes` has `successful` entries and `errors` has
`failed` entries; and folding one more outcome is one more call of
`processResult`, after which none of `successful`, `failed`, `timeouts` is
smaller than before. -/
theorem fold_invariant (totalRequests : Nat) (outcomes : List Result) :
    (processAll totalRequests results outcomes).1.successful
      + (processAll totalRequests results outcomes).1.failed = outcomes.length ∧
    (processAll totalRequests results outcomes).1.timeouts
      ≤ (processAll totalRequests results outcomes).1.failed ∧
    (processAll totalRequests results outcomes).1.responseTimes.length
      = (processAll totalRequests results outcomes).1.successful ∧
    (processAll totalRequests results outcomes).1.errors.length
      = (processAll totalRequests results outcomes).1.failed ∧
    (∀ o : Result,
      (processAll totalRequests results (outcomes ++ [o])).1
        = (processResult totalRequests (processAll totalRequests results outcomes).1 o).1 ∧
      (processAll totalRequests results outcomes).1.successful
        ≤ (processAll totalRequests results (outcomes ++ [o])).1.successful ∧
      (processAll totalRequests results outcomes).1.failed
        ≤ (processAll totalRequests results (outcomes ++ [o])).1.failed ∧
      (processAll totalRequests results outcomes).1.timeouts
        ≤ (processAll totalRequests results (outcomes ++ [o])).1.timeouts) := by
  have hadd := filter_success_add outcomes
  have hto := filter_timeout_le outcomes
  refine ⟨processAll_total totalRequests outcomes, ?_, ?_, ?_, ?_⟩
  · rw [processAll_fst, fold_timeouts, fold_failed]
    simp only [results]
    omega
  · rw [processAll_fst, fold_successful, fold_responseTimes]
    simp [results]
  · rw [processAll_fst, fold_failed, fold_errors]
    simp [results]
  · intro o
    refine ⟨by rw [processAll_append], ?_, ?_, ?_⟩
    · rw [processAll_fst, processAll_fst, fold_successful, fold_successful]
      simp only [List.filter_append, List.length_append]
      omega
    · rw [processAll_fst, processAll_fst, fold_failed, fold_failed]
      simp only [List.filter_append, List.length_append]
      omega
    · rw [processAll_fst, processAll_fst, fold_timeouts, fold_timeouts]
      simp only [List.filter_append, List.length_append]
      omega

/-- Counterexample to C4 as stated: at `totalRequests = 13510798882111492` and
3 workers, with every request timing out, folding the results of all requests
the workers execute ends with `successful + failed = totalRequests - 1`. -/
theorem all_dispatched_counted_counterexample :
    (processAll 13510798882111492 results
        (((distributeRequests 13510798882111492 3).flatMap
          (workerFunction allTimeout)).map Prod.snd)).1.successful
      + (processAll 13510798882111492 results
        (((distributeRequests 13510798882111492 3).flatMap
          (workerFunction allTimeout)).map Prod.snd)).1.failed
      = 13510798882111491 := by
  have h : distributeRequests 13510798882111492 3
      = [(0, 4503599627370497), (4503599627370497, 4503599627370497),
         (9007199254740994, 4503599627370497)] := by decide
  rw [processAll_total, h]
  simp [workerFunction, workerRequestIds]

/-- C4, amended. For `totalRequests` in the safe-integer range (`totalRequests <
2 ^ 53`), `concurrentRequests ≥ 1`, `numWorkers ≥ 1` and any assignment of an
outcome to each request id: once the results of all dispatched requests have
been folded with `processResult`, in whatever order they arrive, `successful +
failed` is `totalRequests`, in batch mode and in worker mode. -/
theorem all_dispatched_counted (totalRequests concurrentRequests numWorkers : Nat)
    (hsafe : totalRequests < 2 ^ 53)
    (hc : 1 ≤ concurrentRequests) (hw : 1 ≤ numWorkers) (outcome : Int → Result) :
    (∀ arrived : List Nat,
      arrived.Perm (batches totalRequests concurrentRequests).flatten →
      (processAll totalRequests results
          (arrived.map (fun (requestId : Nat) => outcome (requestId : Int)))).1.successful
        + (processAll totalRequests results
          (arrived.map (fun (requestId : Nat) => outcome (requestId : Int)))).1.failed
        = totalRequests) ∧
    (∀ arrived : List (Int × Result),
      arrived.Perm
        ((distributeRequests totalRequests numWorkers).flatMap (workerFunction outcome)) →
      (processAll totalRequests results (arrived.map Prod.snd)).1.successful
        + (processAll totalRequests results (arrived.map Prod.snd)).1.failed
        = totalRequests) := by
  constructor
  · intro arrived hp
    rw [processAll_total, List.length_map, hp.length_eq,
      batches_eq_exact totalRequests concurrentRequests hsafe hc,
      batches_flatten totalRequests concurrentRequests hc, List.length_range]
  · intro arrived hp
    have hids : ((distributeRequests totalRequests numWorkers).flatMap
        (workerFunction outcome)).length = totalRequests := by
      have h := distributeRequests_ids totalRequests numWorkers hw
      rw [← distributeRequests_flatMap_eq_exact totalRequests numWorkers hsafe hw] at h
      have h2 : ((distributeRequests totalRequests numWorkers).flatMap
          (workerFunction outcome)).map Prod.fst
          = (distributeRequests totalRequests numWorkers).flatMap workerRequestIds := by
        simp [List.map_flatMap, workerFunction, Function.comp_def]
      have h3 := congrArg List.length h2
      rw [h, List.length_map, List.length_map, List.length_range] at h3
      exact h3
    rw [processAll_total, List.length_map, hp.length_eq, hids]

/-- Witness for C4 amended: 7 requests, concurrency 3, 2 workers, every request
timing out; both modes end with `successful + failed = 7`. -/
theorem all_dispatched_counted_witness :
    (7 < 2 ^ 53 ∧ 1 ≤ 3 ∧ 1 ≤ 2) ∧
    (processAll 7 results
        ((batches 7 3).flatten.map (fun (requestId : Nat) => allTimeout (requestId : Int)))).1.successful
      + (processAll 7 results
        ((batches 7 3).flatten.map (fun (requestId : Nat) => allTimeout (requestId : Int)))).1.failed
      = 7 ∧
    (processAll 7 results
        (((distributeRequests 7 2).flatMap (workerFunction allTimeout)).map Prod.snd)).1.successful
      + (processAll 7 results
        (((distributeRequests 7 2).flatMap (workerFunction allTimeout)).map Prod.snd)).1.failed
      = 7 :=
  ⟨⟨by decide, by decide, by decide⟩,
   (all_dispatched_counted 7 3 2 (by decide) (by decide) (by decide) allTimeout).1 _
     (List.Perm.refl _),
   (all_dispatched_counted 7 3 2 (by decide) (by decide) (by decide) allTimeout).2 _
     (List.Perm.refl _)⟩

/-- C5. Folding a list of outcomes and folding any permutation of it give the
same `successful`, `failed`, `timeouts`, `minTime` and `maxTime`, in the record
and in the report of `displayResults`, and the same table of error counts. -/
theorem fold_order_independent (totalRequests : Nat) (l₁ l₂ : List Result)
    (hperm : l₁.Perm l₂) :
    (processAll totalRequests results l₁).1.successful
      = (processAll totalRequests results l₂).1.successful ∧
    (processAll totalRequests results l₁).1.failed
      = (processAll totalRequests results l₂).1.failed ∧
    (processAll totalRequests results l₁).1.timeouts
      = (processAll totalRequests results l₂).1.timeouts ∧
    (processAll totalRequests results l₁).1.minTime
      = (processAll totalRequests results l₂).1.minTime ∧
    (processAll totalRequests results l₁).1.maxTime
      = (processAll totalRequests results l₂).1.maxTime ∧
    (displayResults (processAll totalRequests results l₁).1).minTime
      = (displayResults (processAll totalRequests results l₂).1).minTime ∧
    (displayResults (processAll totalRequests results l₁).1).maxTime
      = (displayResults (processAll totalRequests results l₂).1).maxTime ∧
    errorCounts (processAll totalRequests results l₁).1.errors
      = errorCounts (processAll totalRequests results l₂).1.errors ∧
    (displayResults (processAll totalRequests results l₁).1).errorCounts
      = (displayResults (processAll totalRequests results l₂).1).errorCounts := by
  have hs := (hperm.filter (fun o => o.success)).length_eq
  have hf := (hperm.filter (fun o => !o.success)).length_eq
  have ht := (hperm.filter
    (fun o => !o.success && decide (o.status = Status.tag "timeout"))).length_eq
  have htimes := (hperm.filter (fun o => o.success)).map (fun o => o.time)
  have herrs := (hperm.filter (fun o => !o.success)).map (fun o => errorText o.error)
  have hmin : (processAll totalRequests results l₁).1.minTime
      = (processAll totalRequests results l₂).1.minTime := by
    rw [processAll_fst, processAll_fst, fold_minTime, fold_minTime]
    exact htimes.foldl_eq' (fun x _ y _ z => min_right_comm z x y) _
  have hmax : (processAll totalRequests results l₁).1.maxTime
      = (processAll totalRequests results l₂).1.maxTime := by
    rw [processAll_fst, processAll_fst, fold_maxTime, fold_maxTime]
    exact htimes.foldl_eq' (fun x _ y _ z => by rw [max_assoc, max_comm x y, ← max_assoc]) _
  have herr : errorCounts (processAll totalRequests results l₁).1.errors
      = errorCounts (processAll totalRequests results l₂).1.errors := by
    rw [processAll_fst, processAll_fst, fold_errors, fold_errors, errorCounts_eq_count,
      errorCounts_eq_count]
    funext e
    simp only [results, List.nil_append]
    exact herrs.count_eq e
  have hlen : (processAll totalRequests results l₁).1.errors.length
      = (processAll totalRequests results l₂).1.errors.length := by
    rw [processAll_fst, processAll_fst, fold_errors, fold_errors]
    simp only [results, List.nil_append]
    exact herrs.length_eq
  refine ⟨?_, ?_, ?_, hmin, hmax, ?_, ?_, herr, ?_⟩
  · rw [processAll_fst, processAll_fst, fold_successful, fold_successful, hs]
  · rw [processAll_fst, processAll_fst, fold_failed, fold_failed, hf]
  · rw [processAll_fst, processAll_fst, fold_timeouts, fold_timeouts, ht]
  · simp only [displayResults, hmin]
  · simp only [displayResults, hmax]
  · simp only [displayResults, hlen, herr]

/-- Witness for C5: the sample run folded in reverse order reports the same
counters, extremes and error table. -/
theorem fold_order_independent_witness :
    sampleOutcomes.reverse.Perm sampleOutcomes ∧
    (processAll 3 results sampleOutcomes.reverse).1.timeouts
      = (processAll 3 results sampleOutcomes).1.timeouts ∧
    (processAll 3 results sampleOutcomes.reverse).1.minTime
      = (processAll 3 results sampleOutcomes).1.minTime ∧
    errorCounts (processAll 3 results sampleOutcomes.reverse).1.errors
      = errorCounts (processAll 3 results sampleOutcomes).1.errors :=
  ⟨List.reverse_perm _,
   (fold_order_independent 3 _ _ (List.reverse_perm sampleOutcomes)).2.2.1,
   (fold_order_independent 3 _ _ (List.reverse_perm sampleOutcomes)).2.2.2.1,
   (fold_order_independent 3 _ _ (List.reverse_perm sampleOutcomes)).2.2.2.2.2.2.2.1⟩

/-- C6. For outcomes whose elapsed times are all `≥ 0`, folded from the empty
record and reported by `displayResults` over the rationals: `responseTimes`
holds the elapsed times of the successes, in fold order, and `avgTime` is their
sum divided by their number (0 when there is none).  When `successful > 0`:
`maxTime` is the largest of them, `minTime` is below each of them, and is the
smallest of them unless they all reach `Number.MAX_SAFE_INTEGER`, when it is 0;
and `minTime ≤ avgTime ≤ maxTime`.  When `successful = 0`: `minTime`, `maxTime`
and `avgTime` are all 0. -/
theorem report_time_bounds (totalRequests : Nat) (outcomes : List Result)
    (hnonneg : ∀ o ∈ outcomes, 0 ≤ o.time) :
    (processAll totalRequests results outcomes).1.responseTimes
      = (outcomes.filter (fun o => o.success)).map (fun o => o.time) ∧
    (displayResults (processAll totalRequests results outcomes).1).avgTime
      = (if (processAll totalRequests results outcomes).1.responseTimes.length > 0
         then (processAll totalRequests results outcomes).1.responseTimes.sum
           / ((processAll totalRequests results outcomes).1.responseTimes.length : ℚ)
         else 0) ∧
    (0 < (processAll totalRequests results outcomes).1.successful →
      (displayResults (processAll totalRequests results outcomes).1).maxTime
        ∈ (outcomes.filter (fun o => o.success)).map (fun o => o.time) ∧
      (∀ t ∈ (outcomes.filter (fun o => o.success)).map (fun o => o.time),
        t ≤ (displayResults (processAll totalRequests results outcomes).1).maxTime) ∧
      (∀ t ∈ (outcomes.filter (fun o => o.success)).map (fun o => o.time),
        (displayResults (processAll totalRequests results outcomes).1).minTime ≤ t) ∧
      ((displayResults (processAll totalRequests results outcomes).1).minTime
          ∈ (outcomes.filter (fun o => o.success)).map (fun o => o.time) ∨
        ((displayResults (processAll totalRequests results outcomes).1).minTime = 0 ∧
          ∀ t ∈ (outcomes.filter (fun o => o.success)).map (fun o => o.time),
            MAX_SAFE_INTEGER ≤ t)) ∧
      (displayResults (processAll totalRequests results outcomes).1).minTime
        ≤ (displayResults (processAll totalRequests results outcomes).1).avgTime ∧
      (displayResults (processAll totalRequests results outcomes).1).avgTime
        ≤ (displayResults (processAll totalRequests results outcomes).1).maxTime) ∧
    ((processAll totalRequests results outcomes).1.successful = 0 →
      (displayResults (processAll totalRequests results outcomes).1).minTime = 0 ∧
      (displayResults (processAll totalRequests results outcomes).1).maxTime = 0 ∧
      (displayResults (processAll totalRequests results outcomes).1).avgTime = 0) := by
  have hts : ∀ t ∈ (outcomes.filter (fun o => o.success)).map (fun o => o.time), (0 : ℚ) ≤ t := by
    intro t ht
    obtain ⟨o, ho, rfl⟩ := List.mem_map.1 ht
    exact hnonneg o (List.mem_filter.1 ho).1
  have hS : (processAll totalRequests results outcomes).1.successful
      = ((outcomes.filter (fun o => o.success)).map (fun o => o.time)).length := by
    rw [processAll_fst, fold_successful]; simp [results]
  have hR : (processAll totalRequests results outcomes).1.responseTimes
      = (outcomes.filter (fun o => o.success)).map (fun o => o.time) := by
    rw [processAll_fst, fold_responseTimes]; simp [results]
  have hMin : (processAll totalRequests results outcomes).1.minTime
      = ((outcomes.filter (fun o => o.success)).map (fun o => o.time)).foldl min
          MAX_SAFE_INTEGER := by
    rw [processAll_fst, fold_minTime]; simp [results]
  have hMax : (processAll totalRequests results outcomes).1.maxTime
      = ((outcomes.filter (fun o => o.success)).map (fun o => o.time)).foldl max 0 := by
    rw [processAll_fst, fold_maxTime]; simp [results]
  rw [hS]
  simp only [displayResults, hR, hMin, hMax, foldl_add_eq_sum, zero_add]
  generalize (outcomes.filter (fun o => o.success)).map (fun o => o.time) = ts at hts
  refine ⟨trivial, trivial, ?_, ?_⟩
  · intro hpos
    have hgt : ts.length > 0 := hpos
    simp only [hgt, if_true]
    have hmaxle : ∀ t ∈ ts, t ≤ List.foldl max 0 ts := fun t ht => (le_foldl_max ts 0).2 t ht
    have hminle : ∀ t ∈ ts,
        (if List.foldl min MAX_SAFE_INTEGER ts = MAX_SAFE_INTEGER then 0
          else List.foldl min MAX_SAFE_INTEGER ts) ≤ t := by
      intro t ht
      split
      · exact hts t ht
      · exact (foldl_min_le ts MAX_SAFE_INTEGER).2 t ht
    have hmaxmem : List.foldl max 0 ts ∈ ts := by
      rcases foldl_max_mem ts 0 with h | h
      · obtain ⟨t, ht⟩ := List.exists_mem_of_length_pos hpos
        have h1 := hmaxle t ht
        have h2 := hts t ht
        rw [h] at h1
        have h3 : t = 0 := le_antisymm h1 h2
        rw [h, ← h3]
        exact ht
      · exact h
    have hminmem : (if List.foldl min MAX_SAFE_INTEGER ts = MAX_SAFE_INTEGER then 0
          else List.foldl min MAX_SAFE_INTEGER ts) ∈ ts ∨
        ((if List.foldl min MAX_SAFE_INTEGER ts = MAX_SAFE_INTEGER then 0
          else List.foldl min MAX_SAFE_INTEGER ts) = 0 ∧
          ∀ t ∈ ts, MAX_SAFE_INTEGER ≤ t) := by
      by_cases hm : List.foldl min MAX_SAFE_INTEGER ts = MAX_SAFE_INTEGER
      · right
        rw [if_pos hm]
        refine ⟨rfl, ?_⟩
        intro t ht
        have := (foldl_min_le ts MAX_SAFE_INTEGER).2 t ht
        rw [hm] at this
        exact this
      · left
        rw [if_neg hm]
        rcases foldl_min_mem ts MAX_SAFE_INTEGER with h | h
        · exact absurd h hm
        · exact h
    obtain ⟨hb1, hb2⟩ := avg_bounds ts _ _ hpos hminle hmaxle
    exact ⟨hmaxmem, hmaxle, hminle, hminmem, hb1, hb2⟩
  · intro hzero
    have hnil : ts = [] := List.length_eq_zero.1 hzero
    subst hnil
    simp

/-- Witness for C6: two successes of 10 ms and 30 ms around a timeout report
`avgTime = 20`, `minTime = 10`, `maxTime = 30`. -/
theorem report_time_bounds_witness :
    (∀ o ∈ sampleOutcomes, 0 ≤ o.time) ∧
    (processAll 3 results sampleOutcomes).1.responseTimes = [10, 30] ∧
    (displayResults (processAll 3 results sampleOutcomes).1).avgTime = 20 ∧
    (displayResults (processAll 3 results sampleOutcomes).1).minTime = 10 ∧
    (displayResults (processAll 3 results sampleOutcomes).1).maxTime = 30 ∧
    (displayResults (processAll 3 results sampleOutcomes).1).minTime
      ≤ (displayResults (processAll 3 results sampleOutcomes).1).avgTime ∧
    (displayResults (processAll 3 results sampleOutcomes).1).avgTime
      ≤ (displayResults (processAll 3 results sampleOutcomes).1).maxTime := by
  have hn : ∀ o ∈ sampleOutcomes, 0 ≤ o.time := by simp [sampleOutcomes]
  have h := report_time_bounds 3 sampleOutcomes hn
  have hr : (processAll 3 results sampleOutcomes).1.responseTimes = [10, 30] := by
    rw [h.1]; simp [sampleOutcomes]
  have havg : (displayResults (processAll 3 results sampleOutcomes).1).avgTime = 20 := by
    rw [h.2.1, hr]; norm_num
  have hmin : (displayResults (processAll 3 results sampleOutcomes).1).minTime = 10 := by
    rw [displayResults_minTime, processAll_fst, fold_minTime]
    norm_num [sampleOutcomes, results, MAX_SAFE_INTEGER]
  have hmax : (displayResults (processAll 3 results sampleOutcomes).1).maxTime = 30 := by
    show (processAll 3 results sampleOutcomes).1.maxTime = 30
    rw [processAll_fst, fold_maxTime]
    norm_num [sampleOutcomes, results]
  exact ⟨hn, hr, havg, hmin, hmax, (h.2.2.1 (by decide)).2.2.2.2.1,
    (h.2.2.1 (by decide)).2.2.2.2.2⟩

/-- C7. Folding outcomes with `processResult` from the empty record under a
configured `totalRequests`: the k-th fold (`k = outcomes.length + 1`) logs
exactly one progress observation when `k` is a multiple of 10 or `k =
totalRequests`, and none otherwise; the observation carries `processed = k`,
`total = totalRequests` and the counters after that fold; over a whole run the
values of `processed` logged are exactly those `k` in `1..n`.  For
`totalRequests = 20` and twenty successes with elapsed 10, 20, ..., 200 the run
ends with `successful = 20`, `failed = 0`, `minTime = 10`, `maxTime = 200`, and
observations at `processed = 10` and `processed = 20` only. -/
theorem progress_observations :
    (∀ (totalRequests : Nat) (outcomes : List Result) (o : Result),
      (processAll totalRequests results (outcomes ++ [o])).2
        = (processAll totalRequests results outcomes).2
          ++ (processResult totalRequests (processAll totalRequests results outcomes).1 o).2 ∧
      (processResult totalRequests (processAll totalRequests results outcomes).1 o).2
        = if (outcomes.length + 1) % 10 = 0 ∨ outcomes.length + 1 = totalRequests then
            [{ processed := outcomes.length + 1, total := totalRequests,
               successful := (processAll totalRequests results (outcomes ++ [o])).1.successful,
               failed := (processAll totalRequests results (outcomes ++ [o])).1.failed }]
          else []) ∧
    (∀ (totalRequests : Nat) (outcomes : List Result),
      (processAll totalRequests results outcomes).2.map (fun p => p.processed)
        = ((List.range outcomes.length).map (fun k => k + 1)).filter
            (fun k => decide (k % 10 = 0 ∨ k = totalRequests))) ∧
    ((processAll 20 results scenarioOutcomes).1.successful = 20 ∧
     (processAll 20 results scenarioOutcomes).1.failed = 0 ∧
     (processAll 20 results scenarioOutcomes).1.minTime = 10 ∧
     (processAll 20 results scenarioOutcomes).1.maxTime = 200 ∧
     (displayResults (processAll 20 results scenarioOutcomes).1).minTime = 10 ∧
     (processAll 20 results scenarioOutcomes).2
       = [{ processed := 10, total := 20, successful := 10, failed := 0 },
          { processed := 20, total := 20, successful := 20, failed := 0 }]) := by
  refine ⟨?_, processAll_log_processed, ?_⟩
  · intro totalRequests outcomes o
    refine ⟨?_, progressLog_after totalRequests outcomes o⟩
    rw [processAll_append]
  · have hmin : (processAll 20 results scenarioOutcomes).1.minTime = 10 := by
      rw [processAll_fst, fold_minTime, scenario_times, foldl_min_steps 19]
      norm_num [results, MAX_SAFE_INTEGER]
    refine ⟨by decide, by decide, hmin, ?_, ?_, by decide⟩
    · rw [processAll_fst, fold_maxTime, scenario_times, foldl_max_steps 19]
      norm_num [results]
    · rw [displayResults_minTime, hmin]
      norm_num [MAX_SAFE_INTEGER]

/-- C8. `makeRequest` returns one result on every path, and the result stands
for exactly one kind: a post that resolves with a response gives Success with
the response status; a failure carrying a response gives HttpError with the
status and `"HTTP error: <status>"`; otherwise, code `ECONNABORTED` gives
Timeout with `"Request timeout"`; otherwise, a failure carrying a request gives
NoResponse with `"No response received"`; a failure to build the form, and any
remaining failure, gives RequestSetupError with a descriptive message. -/
theorem makeRequest_classification (requestId : Int) (env : RequestEnv) :
    (∃ k : Kind, (makeRequest requestId env).1.kind = some k) ∧
    (∀ message : String, env.appendFiles = Except.error message →
      (makeRequest requestId env).1
        = { success := false, status := Status.tag "file_error", time := 0,
            error := some ("File error: " ++ message) } ∧
      (makeRequest requestId env).1.kind = some Kind.RequestSetupError) ∧
    (env.appendFiles = Except.ok () →
      (∀ response : HttpResponse, env.post = PostResult.resolved response →
        (makeRequest requestId env).1
          = { success := true, status := Status.code response.status,
              time := env.endTime - env.startTime, error := none } ∧
        (makeRequest requestId env).1.kind = some Kind.Success) ∧
      (∀ (error : RequestError) (response : HttpResponse),
        env.post = PostResult.rejected error → error.response = some response →
        (makeRequest requestId env).1
          = { success := false, status := Status.code response.status,
              time := env.endTime - env.startTime,
              error := some ("HTTP error: " ++ toString response.status) } ∧
        (makeRequest requestId env).1.kind = some Kind.HttpError) ∧
      (∀ error : RequestError,
        env.post = PostResult.rejected error → error.response = none →
        error.code = some "ECONNABORTED" →
        (makeRequest requestId env).1
          = { success := false, status := Status.tag "timeout",
              time := env.endTime - env.startTime, error := some "Request timeout" } ∧
        (makeRequest requestId env).1.kind = some Kind.Timeout) ∧
      (∀ error : RequestError,
        env.post = PostResult.rejected error → error.response = none →
        error.code ≠ some "ECONNABORTED" → error.request = true →
        (makeRequest requestId env).1
          = { success := false, status := Status.tag "no_response",
              time := env.endTime - env.startTime, error := some "No response received" } ∧
        (makeRequest requestId env).1.kind = some Kind.NoResponse) ∧
      (∀ error : RequestError,
        env.post = PostResult.rejected error → error.response = none →
        error.code ≠ some "ECONNABORTED" → error.request = false →
        (makeRequest requestId env).1
          = { success := false, status := Status.tag "request_error",
              time := env.endTime - env.startTime,
              error := some ("Request error: " ++ error.message) } ∧
        (makeRequest requestId env).1.kind = some Kind.RequestSetupError)) := by
  obtain ⟨appendFiles, post, startTime, endTime⟩ := env
  refine ⟨?_, ?_, ?_⟩
  · cases appendFiles with
    | error message => exact ⟨Kind.RequestSetupError, by simp [makeRequest, Result.kind]⟩
    | ok u =>
      cases post with
      | resolved response => exact ⟨Kind.Success, by simp [makeRequest, Result.kind]⟩
      | rejected error =>
        obtain ⟨response, code, request, message⟩ := error
        cases response with
        | some response => exact ⟨Kind.HttpError, by simp [makeRequest, Result.kind]⟩
        | none =>
          by_cases hcode : code = some "ECONNABORTED"
          · exact ⟨Kind.Timeout, by simp [makeRequest, Result.kind, hcode]⟩
          · cases request with
            | true => exact ⟨Kind.NoResponse, by simp [makeRequest, Result.kind, hcode]⟩
            | false =>
              exact ⟨Kind.RequestSetupError, by simp [makeRequest, Result.kind, hcode]⟩
  · intro message h
    simp only at h
    subst h
    simp [makeRequest, Result.kind]
  · intro h
    simp only at h
    subst h
    refine ⟨?_, ?_, ?_, ?_, ?_⟩
    · intro response h
      simp only at h
      subst h
      simp [makeRequest, Result.kind]
    · intro error response h hr
      simp only at h
      subst h
      simp [makeRequest, Result.kind, hr]
    · intro error h hr hc
      simp only at h
      subst h
      simp [makeRequest, Result.kind, hr, hc]
    · intro error h hr hc hq
      simp only at h
      subst h
      simp [makeRequest, Result.kind, hr, hc, hq]
    · intro error h hr hc hq
      simp only at h
      subst h
      simp [makeRequest, Result.kind, hr, hc, hq]

/-- Witness for C8: a post aborted after 60 s with code `ECONNABORTED` is
classified Timeout with the message `"Request timeout"`. -/
theorem makeRequest_classification_witness :
    (makeRequest 7 timeoutEnv).1
      = { success := false, status := Status.tag "timeout", time := 60100 - 100,
          error := some "Request timeout" } ∧
    (makeRequest 7 timeoutEnv).1.kind = some Kind.Timeout :=
  ((makeRequest_classification 7 timeoutEnv).2.2 rfl).2.2.1 _ rfl rfl rfl

/-- Counterexample to C9 as stated: a failure caught at line 90 that carries no
response, code or request is returned with status `'request_error'`, the kind
RequestSetupError, and the measured elapsed time 5, not 0. -/
theorem request_error_elapsed_counterexample :
    (makeRequest 0 setupFailureEnv).1.status = Status.tag "request_error" ∧
    (makeRequest 0 setupFailureEnv).1.kind = some Kind.RequestSetupError ∧
    (makeRequest 0 setupFailureEnv).1.time = 5 ∧
    (makeRequest 0 setupFailureEnv).1.time ≠ 0 := by
  refine ⟨by simp [makeRequest, setupFailureEnv], by simp [makeRequest, setupFailureEnv, Result.kind], ?_, ?_⟩
  · simp [makeRequest, setupFailureEnv]
  · simp [makeRequest, setupFailureEnv]

/-- C9, amended. A result of `makeRequest` with status `'file_error'` has
elapsed time 0 and is returned without the post being attempted; this is what
happens whenever building the form fails.  A result with status
`'request_error'` is returned only after control reached the post, and carries
the measured time `endTime - startTime`. -/
theorem setup_error_elapsed (requestId : Int) (env : RequestEnv) :
    ((makeRequest requestId env).1.status = Status.tag "file_error" →
      (makeRequest requestId env).1.time = 0 ∧
      Effect.axiosPost ∉ (makeRequest requestId env).2) ∧
    (∀ message : String, env.appendFiles = Except.error message →
      (makeRequest requestId env).1.status = Status.tag "file_error" ∧
      (makeRequest requestId env).1.kind = some Kind.RequestSetupError ∧
      (makeRequest requestId env).1.time = 0 ∧
      Effect.axiosPost ∉ (makeRequest requestId env).2) ∧
    ((makeRequest requestId env).1.status = Status.tag "request_error" →
      (makeRequest requestId env).1.kind = some Kind.RequestSetupError ∧
      (makeRequest requestId env).1.time = env.endTime - env.startTime ∧
      (makeRequest requestId env).2 = [Effect.axiosPost]) := by
  obtain ⟨appendFiles, post, startTime, endTime⟩ := env
  cases appendFiles with
  | error message => simp [makeRequest, Result.kind]
  | ok u =>
    cases post with
    | resolved response => simp [makeRequest, Result.kind]
    | rejected error =>
      obtain ⟨response, code, request, message⟩ := error
      cases response with
      | some response => simp [makeRequest, Result.kind]
      | none =>
        by_cases hcode : code = some "ECONNABORTED"
        · simp [makeRequest, Result.kind, hcode]
        · cases request <;> simp [makeRequest, Result.kind, hcode]

/-- Witness for C9 amended: when building the form throws, the result has
status `'file_error'`, elapsed 0, and no post is attempted. -/
theorem setup_error_elapsed_witness :
    (makeRequest 3 fileErrorEnv).1.status = Status.tag "file_error" ∧
    (makeRequest 3 fileErrorEnv).1.kind = some Kind.RequestSetupError ∧
    (makeRequest 3 fileErrorEnv).1.time = 0 ∧
    Effect.axiosPost ∉ (makeRequest 3 fileErrorEnv).2 :=
  (setup_error_elapsed 3 fileErrorEnv).2.1 _ rfl

/-- Counterexample to C10 as stated, at two calls per batch with the first 429
in the second batch.  When the first call to settle in the first batch receives
the body `null`, it rejects, and `blastRequests` rejects with 2 calls dispatched
(not `2 * 2`), one of them settled, and `stopFlag` still false.  The same
happens when `writeFile` fails for the first call to settle in the first
batch. -/
theorem blast_rejection_counterexample :
    (∀ i, i < 2 → (nullBodyRuns 0 i).response ≠ CallResponse.parsed (some 429)) ∧
    (nullBodyRuns 1 0).response = CallResponse.parsed (some 429) ∧
    (∀ fuel, fuel < 6 → blastRequests 2 nullBodyRuns (fuel + 1) BlastState.initial
      = some (BlastEnd.rejected
          { totalCount := 0, stopFlag := false, dispatched := 2, completed := 1,
            batchesIssued := 1 })) ∧
    (∀ i, i < 2 → (writeFailRuns 0 i).response ≠ CallResponse.parsed (some 429)) ∧
    (writeFailRuns 1 0).response = CallResponse.parsed (some 429) ∧
    (∀ fuel, fuel < 6 → blastRequests 2 writeFailRuns (fuel + 1) BlastState.initial
      = some (BlastEnd.rejected
          { totalCount := 0, stopFlag := false, dispatched := 2, completed := 1,
            batchesIssued := 1 })) := by
  refine ⟨by decide, by decide, by decide, by decide, by decide, by decide⟩

/-- C10, amended. `blastRequests` over any runs of its calls in which, up to and
including the first batch with a 429 response, every file-system operation
succeeds and no body is `null`.  Every batch issued dispatches exactly
`concurrentCount` calls, and each call of such a batch settles fulfilled; a
call that sees code 429 sets the stop signal and leaves `totalCount` alone;
once the stop signal is set the loop is left without another batch or call.
Hence, when batch `j` (counted from 0, i.e. the `(j+1)`-th batch) is the first
in which a call sees 429, the run returns, after `j + 2` tests of the loop
condition, with `j + 1` batches issued and `concurrentCount * (j + 1)` calls
dispatched, all of them settled. -/
theorem blast_stops_after_rate_limit (concurrentCount : Nat)
    (runs : Nat → Nat → CallRun) (j : Nat)
    (hregular : ∀ b, b ≤ j → ∀ i, i < concurrentCount → (runs b i).regular = true)
    (hhit : ∃ i, i < concurrentCount ∧ (runs j i).response = CallResponse.parsed (some 429))
    (hclean : ∀ b, b < j → ∀ i, i < concurrentCount →
      (runs b i).response ≠ CallResponse.parsed (some 429)) :
    (∀ (s : BlastState) (batch : Nat → CallRun),
      (blastStep concurrentCount batch s).1.dispatched = s.dispatched + concurrentCount ∧
      (blastStep concurrentCount batch s).1.batchesIssued = s.batchesIssued + 1) ∧
    (∀ (s : BlastState) (batch : Nat → CallRun),
      (∀ i, i < concurrentCount → (batch i).regular = true) →
      (blastStep concurrentCount batch s).2 = Settled.fulfilled ∧
      (blastStep concurrentCount batch s).1.completed = s.completed + concurrentCount) ∧
    (∀ s : BlastState,
      (makeSingleApiCall s (regularRun (CallResponse.parsed (some 429)))).2
        = Settled.fulfilled ∧
      (makeSingleApiCall s (regularRun (CallResponse.parsed (some 429)))).1.stopFlag = true ∧
      (makeSingleApiCall s (regularRun (CallResponse.parsed (some 429)))).1.totalCount
        = s.totalCount) ∧
    (∀ (s : BlastState) (fuel : Nat), s.stopFlag = true →
      blastRequests concurrentCount runs (fuel + 1) s = some (BlastEnd.returned s)) ∧
    (∀ fuel : Nat, j + 2 ≤ fuel →
      ∃ t : BlastState,
        blastRequests concurrentCount runs fuel BlastState.initial
          = some (BlastEnd.returned t) ∧
        t.stopFlag = true ∧ t.batchesIssued = j + 1 ∧
        t.dispatched = concurrentCount * (j + 1) ∧ t.completed = t.dispatched) := by
  refine ⟨?_, ?_, ?_, ?_, ?_⟩
  · intro s batch
    exact blastStep_counters concurrentCount batch s
  · intro s batch hreg
    obtain ⟨h1, h2, _⟩ := blastStep_regular concurrentCount batch s hreg
    exact ⟨h1, h2⟩
  · intro s
    simp [makeSingleApiCall, regularRun]
  · intro s fuel hs
    simp [blastRequests, hs]
  · intro fuel hfuel
    exact blastRequests_run concurrentCount runs j hregular hhit hclean j BlastState.initial
      rfl (by simp [BlastState.initial]) (by simp [BlastState.initial]) rfl fuel
      (by omega)

/-- Witness for C10 amended: at two calls per batch, all regular, with the first
429 seen in the second batch, the run returns with 2 batches issued and 4 calls
dispatched and settled. -/
theorem blast_stops_after_rate_limit_witness :
    (∀ b, b ≤ 1 → ∀ i, i < 2 → (sampleRuns b i).regular = true) ∧
    (∃ i, i < 2 ∧ (sampleRuns 1 i).response = CallResponse.parsed (some 429)) ∧
    (∀ b, b < 1 → ∀ i, i < 2 →
      (sampleRuns b i).response ≠ CallResponse.parsed (some 429)) ∧
    blastRequests 2 sampleRuns 3 BlastState.initial
      = some (BlastEnd.returned
          { totalCount := 3, stopFlag := true, dispatched := 4, completed := 4,
            batchesIssued := 2 }) ∧
    (∃ t : BlastState,
      blastRequests 2 sampleRuns 3 BlastState.initial = some (BlastEnd.returned t) ∧
      t.stopFlag = true ∧ t.batchesIssued = 1 + 1 ∧
      t.dispatched = 2 * (1 + 1) ∧ t.completed = t.dispatched) :=
  ⟨by decide, ⟨0, by decide, by decide⟩, by decide, by decide,
   (blast_stops_after_rate_limit 2 sampleRuns 1 (by decide) ⟨0, by decide, by decide⟩
     (by decide)).2.2.2.2 3 (by decide)⟩

end LoadTest
